import Mathlib

/-!
Shallow embedding of the permission-operation and rollback subsystem of
`permission_bot.py` (class `PermissionManager`): the batch write flows
(`bulk_role_to_channel_permissions`, `pattern_match_permissions`,
`copy_permissions`), the depth-1 operation log with
`rollback_last_operation`, and `export_config` / `import_config`.

Modelling conventions:

* A `discord.PermissionOverwrite` is a finite partial map from permission
  names to `Bool` (`True` = allow, `False` = deny, absent/`None` =
  inherit), represented as an insertion-ordered association list — the
  behaviour of a Python `dict`.  Following the source's declaration that
  `self.permissions` lists "All Discord permissions as of 2025", the
  settable permission attributes of the overwrite object (what
  `hasattr(overwrite, perm_name)` accepts) are modelled as exactly that
  catalog.
* `channel.overwrites` is a map from role id to overwrite record; the
  remote overwrite store is a function from channel id to such a map.
  Accessing `channel.overwrites` in discord.py constructs fresh objects,
  so value semantics is faithful; `.copy()` is the identity on values.
* `channel.edit(overwrites=...)` may raise `discord.DiscordException`.
  This is modelled by an oracle `fails : Nat → Option String` giving, per
  channel id, the exception text when the edit raises (`none` = the edit
  succeeds and replaces the channel's whole overwrite map).
* Role objects are keyed by their integer id (discord.py hashes them by
  id); the `str(role.id)` / `int(role_id_str)` round trip of the config
  file is the identity, so serialized role keys are kept as `Nat`.
* Console prints are diagnostics; where a claim depends on what is
  reported, the distinct printed messages are reflected in the returned
  value (`RollbackOutcome` below mirrors the three distinct
  message/return combinations of `rollback_last_operation`).
-/

namespace DiscordPerms

/-- Lookup in an insertion-ordered association list (Python `d.get(k)` /
`k in d` followed by `d[k]`). -/
def lookupKey {α β : Type} [DecidableEq α] : List (α × β) → α → Option β
  | [], _ => none
  | (k, v) :: rest, a => if k = a then some v else lookupKey rest a

/-- Python `dict` assignment `d[k] = v`: replace in place when the key is
present, else append (insertion order preserved). -/
def setKey {α β : Type} [DecidableEq α] : List (α × β) → α → β → List (α × β)
  | [], a, b => [(a, b)]
  | (k, v) :: rest, a, b =>
    if k = a then (a, b) :: rest else (k, v) :: setKey rest a b

/-- The permission catalog `self.permissions` of `PermissionManager.__init__`. -/
def permissions : List String :=
  [ "create_instant_invite"
  , "kick_members"
  , "ban_members"
  , "administrator"
  , "manage_channels"
  , "manage_guild"
  , "add_reactions"
  , "view_audit_log"
  , "priority_speaker"
  , "stream"
  , "view_channel"
  , "send_messages"
  , "send_tts_messages"
  , "manage_messages"
  , "embed_links"
  , "attach_files"
  , "read_message_history"
  , "mention_everyone"
  , "use_external_emojis"
  , "view_guild_insights"
  , "connect"
  , "speak"
  , "mute_members"
  , "deafen_members"
  , "move_members"
  , "use_vad"
  , "change_nickname"
  , "manage_nicknames"
  , "manage_roles"
  , "manage_webhooks"
  , "manage_emojis_and_stickers"
  , "use_application_commands"
  , "request_to_speak"
  , "manage_events"
  , "manage_threads"
  , "create_public_threads"
  , "create_private_threads"
  , "use_external_stickers"
  , "send_messages_in_threads"
  , "use_embedded_activities"
  , "moderate_members"
  , "view_creator_monetization_analytics"
  , "use_soundboard"
  , "send_voice_messages"
  , "set_voice_channel_status"
  , "use_external_sounds"
  , "bypass_slowmode" ]

/-- An overwrite record: explicit flag entries; a flag with no entry is
`Inherit` (`None`). -/
abbrev PermissionOverwrite := List (String × Bool)

/-- A channel's overwrite map, keyed by role id (`channel.overwrites`). -/
abbrev ChannelOverwriteMap := List (Nat × PermissionOverwrite)

/-- The shared merge loop of every write flow:
`for perm_name, value in permissions_dict.items():`
`    if hasattr(overwrite, perm_name): setattr(overwrite, perm_name, value)`.
The `hasattr` test is modelled as catalog membership (see the header). -/
def applyPermissionsDict (overwrite : PermissionOverwrite)
    (permissionsDict : List (String × Bool)) : PermissionOverwrite :=
  permissionsDict.foldl
    (fun acc pv => if pv.1 ∈ permissions then setKey acc pv.1 pv.2 else acc)
    overwrite

/-- The Permission Editor contract of spec §4.1, as the source implements
it (lines 221–229): take the role's existing record when present, else a
fresh `discord.PermissionOverwrite()` (all inherit), and merge the
requested flags into it. -/
def computeNewOverwrite (current : Option PermissionOverwrite)
    (requested : List (String × Bool)) : PermissionOverwrite :=
  applyPermissionsDict (current.getD []) requested

structure Role where
  id : Nat
  name : String
deriving DecidableEq

structure Channel where
  id : Nat
  name : String
  ctype : String
  categoryId : Option Nat
deriving DecidableEq

structure Guild where
  id : Nat
  name : String
  roles : List Role
  channels : List Channel
deriving DecidableEq

/-- The single-slot operation log entries (`self.last_operation` dicts,
tagged by their `'type'` field). -/
inductive BatchOperation where
  | bulkRoleToChannel (role : Role) (channels : List Channel)
      (originalOverwrites : List (Nat × ChannelOverwriteMap))
      (newPermissions : List (String × Bool))
  | patternMatch (rolePattern channelPattern : String)
      (matchingRoles : List Role) (matchingChannels : List Channel)
      (originalOverwrites : List (Nat × ChannelOverwriteMap))
      (newPermissions : List (String × Bool))
  | copyPermissions (source target : Channel)
      (originalOverwrites : ChannelOverwriteMap)
  | importConfig (originalOverwrites : List (Nat × ChannelOverwriteMap))
      (importedFrom : String)
deriving DecidableEq

/-- The mutable state the subsystem touches: the remote overwrite store
(per channel id) and the depth-1 operation log. -/
structure BotState where
  ows : Nat → ChannelOverwriteMap
  lastOperation : Option BatchOperation

/-- One successful `channel.edit(overwrites=...)`: replace the channel's
whole overwrite map. -/
def writeOw (ows : Nat → ChannelOverwriteMap) (cid : Nat)
    (m : ChannelOverwriteMap) : Nat → ChannelOverwriteMap :=
  fun c => if c = cid then m else ows c

/-- The pre-image capture loop run before any write of a batch:
`for channel in channels: original_overwrites[channel.id] = channel.overwrites.copy()`. -/
def captureOverwrites (ows : Nat → ChannelOverwriteMap)
    (channels : List Channel) : List (Nat × ChannelOverwriteMap) :=
  channels.foldl (fun acc c => setKey acc c.id (ows c.id)) []

/-- One iteration of the write loop of `bulk_role_to_channel_permissions`
(lines 215–238): compute the merged overwrite for the role, edit the
channel, record per-channel status; a `discord.DiscordException` from the
edit is caught and recorded, leaving the channel unchanged. -/
def bulkStep (fails : Nat → Option String) (role : Role)
    (permissionsDict : List (String × Bool))
    (acc : List (String × String) × (Nat → ChannelOverwriteMap))
    (c : Channel) : List (String × String) × (Nat → ChannelOverwriteMap) :=
  match fails c.id with
  | some e => (setKey acc.1 c.name ("Failed: " ++ e), acc.2)
  | none =>
    let newOverwrites := acc.2 c.id
    let overwrite := computeNewOverwrite (lookupKey newOverwrites role.id) permissionsDict
    (setKey acc.1 c.name "Success",
     writeOw acc.2 c.id (setKey newOverwrites role.id overwrite))

/-- Embeds `PermissionManager.bulk_role_to_channel_permissions` (lines 198–249). -/
def bulkRoleToChannelPermissions (fails : Nat → Option String) (role : Role)
    (channels : List Channel) (permissionsDict : List (String × Bool))
    (st : BotState) : List (String × String) × BotState :=
  let originalOverwrites := captureOverwrites st.ows channels
  let res := channels.foldl (bulkStep fails role permissionsDict) ([], st.ows)
  (res.1,
   ⟨res.2, some (.bulkRoleToChannel role channels originalOverwrites permissionsDict)⟩)

def prefixMatches : List Char → List Char → Bool
  | [], _ => true
  | _ :: _, [] => false
  | a :: as, b :: bs => a == b && prefixMatches as bs

def containsSub (needle : List Char) : List Char → Bool
  | [] => needle.isEmpty
  | b :: bs => prefixMatches needle (b :: bs) || containsSub needle bs

/-- Python `str.lower()` restricted to its ASCII action, as a character list. -/
def strLower (s : String) : List Char :=
  s.toList.map Char.toLower

/-- Python's case-insensitive containment test
`pattern.lower() in name.lower()`. -/
def patternInName (pat name : String) : Bool :=
  containsSub (strLower pat) (strLower name)

/-- The inner write loop of `pattern_match_permissions` for one matching
role over all matching channels (lines 282–307), with the per-pair
try/except producing `"role -> channel"`-keyed results. -/
def patternStep (fails : Nat → Option String)
    (permissionsDict : List (String × Bool)) (matchingChannels : List Channel)
    (acc : List (String × String) × (Nat → ChannelOverwriteMap))
    (r : Role) : List (String × String) × (Nat → ChannelOverwriteMap) :=
  matchingChannels.foldl
    (fun acc2 c =>
      match fails c.id with
      | some e =>
        (setKey acc2.1 (r.name ++ " -> " ++ c.name) ("Failed: " ++ e), acc2.2)
      | none =>
        let newOverwrites := acc2.2 c.id
        let overwrite := computeNewOverwrite (lookupKey newOverwrites r.id) permissionsDict
        (setKey acc2.1 (r.name ++ " -> " ++ c.name) "Success",
         writeOw acc2.2 c.id (setKey newOverwrites r.id overwrite)))
    acc

/-- Embeds `PermissionManager.pattern_match_permissions` (lines 251–320):
substring-match roles and channels, abort with a diagnostic (and the empty
result map) when either set is empty, else capture pre-images and run the
Cartesian write loop, then record the operation. -/
def patternMatchPermissions (fails : Nat → Option String) (guild : Guild)
    (rolePattern channelPattern : String)
    (permissionsDict : List (String × Bool)) (st : BotState) :
    List (String × String) × BotState :=
  let matchingRoles := guild.roles.filter (fun r => patternInName rolePattern r.name)
  let matchingChannels := guild.channels.filter (fun c => patternInName channelPattern c.name)
  if matchingRoles.isEmpty then ([], st)
  else if matchingChannels.isEmpty then ([], st)
  else
    let originalOverwrites := captureOverwrites st.ows matchingChannels
    let res := matchingRoles.foldl (patternStep fails permissionsDict matchingChannels) ([], st.ows)
    (res.1,
     ⟨res.2, some (.patternMatch rolePattern channelPattern matchingRoles
        matchingChannels originalOverwrites permissionsDict)⟩)

/-- Embeds `PermissionManager.copy_permissions` (lines 322–345): wholesale
replacement of the target's overwrite map by the source's; the operation
log is only written after a successful edit, so a raising edit leaves all
state unchanged. -/
def copyPermissionsOp (fails : Nat → Option String) (source target : Channel)
    (st : BotState) : String × BotState :=
  match fails target.id with
  | some e => ("Failed: " ++ e, st)
  | none =>
    ("Success",
     ⟨writeOw st.ows target.id (st.ows source.id),
      some (.copyPermissions source target (st.ows target.id))⟩)

/-- Embeds `PermissionManager.audit_permissions` (lines 347–352): a pure read. -/
def auditPermissions (st : BotState) (target : Channel) : ChannelOverwriteMap :=
  st.ows target.id

/-- The three observationally distinct outcomes of
`rollback_last_operation`: printed `"No operation to rollback!"` with
return `False`; printed `"Rollback successful!"` with return `True`;
printed `"Rollback failed: ..."` with return `False`. -/
inductive RollbackOutcome where
  | nothingToRollback
  | success
  | failure
deriving DecidableEq

/-- The restore loop of the bulk/pattern rollback branches:
`for channel in ...: if channel.id in original_overwrites: await channel.edit(...)`.
A raising edit aborts the loop (the exception propagates to the outer
try), keeping the writes already made. -/
def restoreChannels (fails : Nat → Option String)
    (pre : List (Nat × ChannelOverwriteMap)) :
    List Channel → (Nat → ChannelOverwriteMap) → Bool × (Nat → ChannelOverwriteMap)
  | [], ows => (true, ows)
  | c :: rest, ows =>
    match lookupKey pre c.id with
    | none => restoreChannels fails pre rest ows
    | some m =>
      match fails c.id with
      | some _ => (false, ows)
      | none => restoreChannels fails pre rest (writeOw ows c.id m)

/-- Embeds `PermissionManager.rollback_last_operation` (lines 354–387).  Note
the source has no branch for `'import_config'`: such an operation falls
through all the `elif`s, performs no write, prints success, and clears
the log. -/
def rollbackLastOperation (fails : Nat → Option String) (st : BotState) :
    RollbackOutcome × BotState :=
  match st.lastOperation with
  | none => (.nothingToRollback, st)
  | some (.bulkRoleToChannel role chans pre perms) =>
    let res := restoreChannels fails pre chans st.ows
    if res.1 then (.success, ⟨res.2, none⟩)
    else (.failure, ⟨res.2, some (.bulkRoleToChannel role chans pre perms)⟩)
  | some (.patternMatch rp cp mr mc pre perms) =>
    let res := restoreChannels fails pre mc st.ows
    if res.1 then (.success, ⟨res.2, none⟩)
    else (.failure, ⟨res.2, some (.patternMatch rp cp mr mc pre perms)⟩)
  | some (.copyPermissions _src tgt pre) =>
    if (fails tgt.id).isSome then (.failure, st)
    else (.success, ⟨writeOw st.ows tgt.id pre, none⟩)
  | some (.importConfig _ _) => (.success, ⟨st.ows, none⟩)

/-- Whether the rollback of `op` would hit a raising edit under `fails`:
for the bulk/pattern branches, some listed channel both has a captured
pre-image and fails; for the copy branch, the target fails; the import
branch performs no write. -/
def rollbackWriteFailure (fails : Nat → Option String) : BatchOperation → Bool
  | .bulkRoleToChannel _ chans pre _ =>
    chans.any (fun c => (lookupKey pre c.id).isSome && (fails c.id).isSome)
  | .patternMatch _ _ _ chans pre _ =>
    chans.any (fun c => (lookupKey pre c.id).isSome && (fails c.id).isSome)
  | .copyPermissions _ target _ => (fails target.id).isSome
  | .importConfig _ _ => false

structure ChannelConfig where
  id : Nat
  name : String
  ctype : String
  categoryId : Option Nat
  overwrites : List (Nat × List (String × Bool))
deriving DecidableEq

structure ExportedConfig where
  guildId : Nat
  guildName : String
  exportedAt : String
  channels : List ChannelConfig
deriving DecidableEq

/-- The serialization of one overwrite record (lines 411–418): iterate the
catalog and keep only explicitly set values (`value is not None`). -/
def exportOverwriteData (overwrite : PermissionOverwrite) : List (String × Bool) :=
  permissions.filterMap (fun p => (lookupKey overwrite p).map (fun v => (p, v)))

/-- The `overwrites` object of one serialized channel (lines 411–421):
records with no explicit entry are omitted.  `channel.overwrites` is a
dict, so the role keys iterated here are distinct. -/
def exportChannelOverwrites (m : ChannelOverwriteMap) :
    List (Nat × List (String × Bool)) :=
  m.filterMap (fun rp =>
    if (exportOverwriteData rp.2).isEmpty then none
    else some (rp.1, exportOverwriteData rp.2))

/-- Embeds `PermissionManager.export_config` (lines 389–428), minus the file
write. -/
def exportConfig (guild : Guild) (exportedAt : String) (st : BotState) :
    ExportedConfig :=
  { guildId := guild.id
    guildName := guild.name
    exportedAt := exportedAt
    channels := guild.channels.map (fun c =>
      { id := c.id
        name := c.name
        ctype := c.ctype
        categoryId := c.categoryId
        overwrites := exportChannelOverwrites (st.ows c.id) }) }

/-- Embeds `guild.get_role(role_id)`. -/
def getRole (guild : Guild) (rid : Nat) : Option Role :=
  guild.roles.find? (fun r => r.id == rid)

/-- Embeds `guild.get_channel(channel_id)`. -/
def getChannel (guild : Guild) (cid : Nat) : Option Channel :=
  guild.channels.find? (fun c => c.id == cid)

/-- The reconstruction of one overwrite record during import (lines
457–460): a fresh `discord.PermissionOverwrite()` with the stored flags
set through the same `hasattr`-guarded loop as the merge. -/
def importOverwriteRecord (overwriteData : List (String × Bool)) : PermissionOverwrite :=
  applyPermissionsDict [] overwriteData

/-- One iteration of the per-role reconstruction loop (lines 452–462):
resolve the stored role id against the live role set, skipping
unresolved ids. -/
def importRoleStep (guild : Guild) (acc : ChannelOverwriteMap)
    (rd : Nat × List (String × Bool)) : ChannelOverwriteMap :=
  match getRole guild rd.1 with
  | none => acc
  | some role => setKey acc role.id (importOverwriteRecord rd.2)

/-- The `new_overwrites` dict built for one imported channel (lines
451–462): role ids not resolving against the live role set are skipped. -/
def importChannelOverwrites (guild : Guild)
    (data : List (Nat × List (String × Bool))) : ChannelOverwriteMap :=
  data.foldl (importRoleStep guild) []

/-- One iteration of the import write loop (lines 446–465): look the
config channel up in the live guild, skip it when gone, else replace its
whole overwrite map with the reconstructed one. -/
def importStep (guild : Guild) (acc : Nat → ChannelOverwriteMap)
    (cd : ChannelConfig) : Nat → ChannelOverwriteMap :=
  match getChannel guild cd.id with
  | none => acc
  | some ch => writeOw acc ch.id (importChannelOverwrites guild cd.overwrites)

/-- Embeds `PermissionManager.import_config` (lines 430–481), starting from an
already parsed config (top-level file/parse errors abort before this
point): capture the full live snapshot, then replace the overwrite map of
every config channel still present live.  The source fires the edits with
`asyncio.create_task`; they are modelled as applied (the sequential
single-event-loop completion of those tasks). -/
def importConfigOp (guild : Guild) (config : ExportedConfig)
    (filename : String) (st : BotState) : BotState :=
  let originalOverwrites := captureOverwrites st.ows guild.channels
  let ows := config.channels.foldl (importStep guild) st.ows
  ⟨ows, some (.importConfig originalOverwrites filename)⟩

/-- The tri-state a record assigns to a flag (`getattr(overwrite, flag)`):
`some true` = Allow, `some false` = Deny, `none` = Inherit. -/
def getPerm (overwrite : PermissionOverwrite) (flag : String) : Option Bool :=
  lookupKey overwrite flag

/-- The tri-state a channel overwrite map assigns to a role/flag pair; a
role with no record inherits everything. -/
def rolePermState (m : ChannelOverwriteMap) (rid : Nat) (flag : String) :
    Option Bool :=
  match lookupKey m rid with
  | none => none
  | some o => lookupKey o flag

/-! Association-list lemmas (Python `dict` semantics). -/

theorem lookupKey_nil {α β : Type} [DecidableEq α] (a : α) :
    lookupKey ([] : List (α × β)) a = none := rfl

theorem lookupKey_cons_self {α β : Type} [DecidableEq α]
    (l : List (α × β)) (a : α) (b : β) :
    lookupKey ((a, b) :: l) a = some b := by
  simp [lookupKey]

theorem lookupKey_cons_ne {α β : Type} [DecidableEq α]
    (l : List (α × β)) (k a : α) (v : β) (h : k ≠ a) :
    lookupKey ((k, v) :: l) a = lookupKey l a := by
  simp [lookupKey, h]

theorem setKey_nil {α β : Type} [DecidableEq α] (a : α) (b : β) :
    setKey ([] : List (α × β)) a b = [(a, b)] := rfl

theorem setKey_cons_self {α β : Type} [DecidableEq α]
    (l : List (α × β)) (a : α) (v b : β) :
    setKey ((a, v) :: l) a b = (a, b) :: l := by
  simp [setKey]

theorem setKey_cons_ne {α β : Type} [DecidableEq α]
    (l : List (α × β)) (k a : α) (v b : β) (h : k ≠ a) :
    setKey ((k, v) :: l) a b = (k, v) :: setKey l a b := by
  simp [setKey, h]

theorem lookupKey_setKey_self {α β : Type} [DecidableEq α]
    (l : List (α × β)) (a : α) (b : β) :
    lookupKey (setKey l a b) a = some b := by
  induction l with
  | nil => simp [setKey_nil, lookupKey_cons_self]
  | cons kv rest ih =>
    obtain ⟨k, v⟩ := kv
    by_cases h : k = a
    · subst h
      rw [setKey_cons_self, lookupKey_cons_self]
    · rw [setKey_cons_ne _ _ _ _ _ h, lookupKey_cons_ne _ _ _ _ h, ih]

theorem lookupKey_setKey_ne {α β : Type} [DecidableEq α]
    (l : List (α × β)) (a c : α) (b : β) (h : a ≠ c) :
    lookupKey (setKey l a b) c = lookupKey l c := by
  induction l with
  | nil => rw [setKey_nil, lookupKey_cons_ne _ _ _ _ h, lookupKey_nil]
  | cons kv rest ih =>
    obtain ⟨k, v⟩ := kv
    by_cases hk : k = a
    · subst hk
      rw [setKey_cons_self, lookupKey_cons_ne _ _ _ _ h, lookupKey_cons_ne _ _ _ _ h]
    · by_cases hc : k = c
      · subst hc
        rw [setKey_cons_ne _ _ _ _ _ hk, lookupKey_cons_self, lookupKey_cons_self]
      · rw [setKey_cons_ne _ _ _ _ _ hk, lookupKey_cons_ne _ _ _ _ hc,
          lookupKey_cons_ne _ _ _ _ hc, ih]

theorem mem_setKey {α β : Type} [DecidableEq α]
    (l : List (α × β)) (a : α) (b : β) (e : α × β)
    (he : e ∈ setKey l a b) : e = (a, b) ∨ e ∈ l := by
  induction l with
  | nil => simpa [setKey] using he
  | cons kv rest ih =>
    obtain ⟨k, v⟩ := kv
    by_cases hk : k = a
    · simp only [setKey, if_pos hk, List.mem_cons] at he
      rcases he with h | h
      · exact Or.inl h
      · exact Or.inr (List.mem_cons_of_mem _ h)
    · simp only [setKey, if_neg hk, List.mem_cons] at he
      rcases he with h | h
      · exact Or.inr (h ▸ List.mem_cons_self _ _)
      · rcases ih h with h1 | h1
        · exact Or.inl h1
        · exact Or.inr (List.mem_cons_of_mem _ h1)

theorem lookupKey_eq_none_iff {α β : Type} [DecidableEq α]
    (l : List (α × β)) (a : α) :
    lookupKey l a = none ↔ a ∉ l.map Prod.fst := by
  induction l with
  | nil => simp [lookupKey]
  | cons kv rest ih =>
    obtain ⟨k, v⟩ := kv
    by_cases h : k = a
    · simp [lookupKey, h]
    · simp [lookupKey, h, ih, Ne.symm h]

theorem mem_of_lookupKey_eq_some {α β : Type} [DecidableEq α]
    (l : List (α × β)) (a : α) (b : β) (h : lookupKey l a = some b) :
    (a, b) ∈ l := by
  induction l with
  | nil => simp [lookupKey] at h
  | cons kv rest ih =>
    obtain ⟨k, v⟩ := kv
    by_cases hk : k = a
    · subst hk
      rw [lookupKey_cons_self] at h
      injection h with h
      subst h
      exact List.mem_cons_self _ _
    · rw [lookupKey_cons_ne _ _ _ _ hk] at h
      exact List.mem_cons_of_mem _ (ih h)

theorem lookupKey_of_mem_of_nodup {α β : Type} [DecidableEq α]
    (l : List (α × β)) (a : α) (b : β)
    (hnd : (l.map Prod.fst).Nodup) (hmem : (a, b) ∈ l) :
    lookupKey l a = some b := by
  induction l with
  | nil => simp at hmem
  | cons kv rest ih =>
    obtain ⟨k, v⟩ := kv
    simp only [List.map_cons, List.nodup_cons] at hnd
    rcases List.mem_cons.mp hmem with h | h
    · injection h with h1 h2
      subst h1
      subst h2
      simp [lookupKey]
    · by_cases hk : k = a
      · subst hk
        exact absurd (List.mem_map_of_mem Prod.fst h) hnd.1
      · simp only [lookupKey, if_neg hk]
        exact ih hnd.2 h

/-! Merge lemmas for `applyPermissionsDict`. -/

theorem applyPermissionsDict_nil (o : PermissionOverwrite) :
    applyPermissionsDict o [] = o := rfl

theorem applyPermissionsDict_cons (o : PermissionOverwrite)
    (pv : String × Bool) (d : List (String × Bool)) :
    applyPermissionsDict o (pv :: d) =
      applyPermissionsDict
        (if pv.1 ∈ permissions then setKey o pv.1 pv.2 else o) d := by
  by_cases h : pv.1 ∈ permissions <;>
    simp [applyPermissionsDict, List.foldl_cons, h]

theorem getPerm_applyPermissionsDict_of_not_key (o : PermissionOverwrite)
    (d : List (String × Bool)) (f : String) (h : f ∉ d.map Prod.fst) :
    getPerm (applyPermissionsDict o d) f = getPerm o f := by
  induction d generalizing o with
  | nil => rfl
  | cons pv rest ih =>
    simp only [List.map_cons, List.mem_cons, not_or] at h
    rw [applyPermissionsDict_cons]
    rw [ih _ h.2]
    by_cases hp : pv.1 ∈ permissions
    · rw [if_pos hp]
      exact lookupKey_setKey_ne _ _ _ _ (fun he => h.1 he.symm)
    · rw [if_neg hp]

theorem getPerm_applyPermissionsDict_of_not_catalog (o : PermissionOverwrite)
    (d : List (String × Bool)) (f : String) (h : f ∉ permissions) :
    getPerm (applyPermissionsDict o d) f = getPerm o f := by
  induction d generalizing o with
  | nil => rfl
  | cons pv rest ih =>
    rw [applyPermissionsDict_cons]
    rw [ih]
    by_cases hp : pv.1 ∈ permissions
    · rw [if_pos hp]
      exact lookupKey_setKey_ne _ _ _ _ (fun he => h (he ▸ hp))
    · rw [if_neg hp]

theorem getPerm_applyPermissionsDict_of_mem (o : PermissionOverwrite)
    (d : List (String × Bool)) (f : String) (b : Bool)
    (hnd : (d.map Prod.fst).Nodup) (hmem : (f, b) ∈ d)
    (hcat : f ∈ permissions) :
    getPerm (applyPermissionsDict o d) f = some b := by
  induction d generalizing o with
  | nil => simp at hmem
  | cons pv rest ih =>
    simp only [List.map_cons, List.nodup_cons] at hnd
    rw [applyPermissionsDict_cons]
    rcases List.mem_cons.mp hmem with h | h
    · subst h
      rw [if_pos hcat]
      rw [getPerm_applyPermissionsDict_of_not_key _ _ _ hnd.1]
      exact lookupKey_setKey_self _ _ _
    · exact ih _ hnd.2 h

theorem keys_applyPermissionsDict_subset (o : PermissionOverwrite)
    (d : List (String × Bool)) (ho : ∀ e ∈ o, e.1 ∈ permissions) :
    ∀ e ∈ applyPermissionsDict o d, e.1 ∈ permissions := by
  induction d generalizing o with
  | nil => exact ho
  | cons pv rest ih =>
    rw [applyPermissionsDict_cons]
    by_cases hp : pv.1 ∈ permissions
    · rw [if_pos hp]
      refine ih _ (fun e he => ?_)
      rcases mem_setKey _ _ _ _ he with h | h
      · rw [h]
        exact hp
      · exact ho e h
    · rw [if_neg hp]
      exact ih _ ho

/-- C2: flag names outside the permission catalog are dropped silently by
the shared merge loop of every write flow — merging never changes the
state of a non-catalog flag, and when the record's explicit entries all
lie in the catalog (as for every record the program constructs) the
merged record's explicit entries still all lie in the catalog, so a
non-catalog name never appears as an explicitly-set entry. -/
theorem unknown_flags_never_stored (o : PermissionOverwrite)
    (req : List (String × Bool)) :
    (∀ f, f ∉ permissions →
      getPerm (applyPermissionsDict o req) f = getPerm o f) ∧
    ((∀ e ∈ o, e.1 ∈ permissions) →
      ∀ e ∈ applyPermissionsDict o req, e.1 ∈ permissions) :=
  ⟨fun f hf => getPerm_applyPermissionsDict_of_not_catalog o req f hf,
   fun ho => keys_applyPermissionsDict_subset o req ho⟩

/-- Witness for C2 at a concrete input: a made-up flag name is not in the
catalog, merging it leaves the record's value for it untouched (inherit),
and the merged record of a catalog-only record stays catalog-only. -/
theorem unknown_flags_never_stored_witness :
    ("totally_unknown_flag" ∉ permissions) ∧
    getPerm (applyPermissionsDict [("speak", true)]
      [("totally_unknown_flag", true), ("connect", false)])
      "totally_unknown_flag" = getPerm [("speak", true)] "totally_unknown_flag" ∧
    (∀ e ∈ applyPermissionsDict [("speak", true)]
      [("totally_unknown_flag", true), ("connect", false)], e.1 ∈ permissions) :=
  ⟨by decide,
   (unknown_flags_never_stored [("speak", true)]
      [("totally_unknown_flag", true), ("connect", false)]).1
      "totally_unknown_flag" (by decide),
   (unknown_flags_never_stored [("speak", true)]
      [("totally_unknown_flag", true), ("connect", false)]).2 (by decide)⟩

/-- C5: the Permission Editor merge — each requested catalog flag is set
to Allow (`some true`) or Deny (`some false`) per its boolean, every flag
not mentioned keeps its prior state, and with no current overwrite the
merge starts from the all-Inherit record. -/
theorem computeNewOverwrite_merge_spec (cur : Option PermissionOverwrite)
    (req : List (String × Bool))
    (hcat : ∀ e ∈ req, e.1 ∈ permissions)
    (hnd : (req.map Prod.fst).Nodup) :
    (∀ e ∈ req, getPerm (computeNewOverwrite cur req) e.1 = some e.2) ∧
    (∀ f, f ∉ req.map Prod.fst →
      getPerm (computeNewOverwrite cur req) f = getPerm (cur.getD []) f) ∧
    (cur = none → ∀ f, f ∉ req.map Prod.fst →
      getPerm (computeNewOverwrite cur req) f = none) := by
  refine ⟨fun e he => ?_, fun f hf => ?_, fun hc f hf => ?_⟩
  · exact getPerm_applyPermissionsDict_of_mem _ req e.1 e.2 hnd he (hcat e he)
  · exact getPerm_applyPermissionsDict_of_not_key _ req f hf
  · subst hc
    exact getPerm_applyPermissionsDict_of_not_key _ req f hf

/-- Witness for C5 at a concrete input: from no current overwrite,
requesting allow `send_messages` and deny `connect` yields exactly those
two explicit entries and leaves `speak` inherited. -/
theorem computeNewOverwrite_merge_spec_witness :
    (∀ e ∈ [("send_messages", true), ("connect", false)],
      getPerm (computeNewOverwrite none [("send_messages", true), ("connect", false)]) e.1 = some e.2) ∧
    getPerm (computeNewOverwrite none [("send_messages", true), ("connect", false)]) "speak" = none :=
  ⟨(computeNewOverwrite_merge_spec none
      [("send_messages", true), ("connect", false)] (by decide) (by decide)).1,
   (computeNewOverwrite_merge_spec none
      [("send_messages", true), ("connect", false)] (by decide) (by decide)).2.2 rfl
      "speak" (by decide)⟩

/-- C9: merging two requested-flag maps with disjoint keys one after the
other equals merging their union (concatenation, as for disjoint Python
dicts) in one step. -/
theorem merge_disjoint_union (r : PermissionOverwrite)
    (m1 m2 : List (String × Bool))
    (_hdisj : ∀ e1 ∈ m1, ∀ e2 ∈ m2, e1.1 ≠ e2.1) :
    applyPermissionsDict (applyPermissionsDict r m1) m2 =
      applyPermissionsDict r (m1 ++ m2) := by
  rw [applyPermissionsDict, applyPermissionsDict, applyPermissionsDict,
    List.foldl_append]

/-- Witness for C9 at a concrete input with disjoint keys. -/
theorem merge_disjoint_union_witness :
    (∀ e1 ∈ [("send_messages", true)], ∀ e2 ∈ [("connect", false)], e1.1 ≠ e2.1) ∧
    applyPermissionsDict (applyPermissionsDict [("speak", false)] [("send_messages", true)])
        [("connect", false)] =
      applyPermissionsDict [("speak", false)] ([("send_messages", true)] ++ [("connect", false)]) :=
  ⟨by decide,
   merge_disjoint_union [("speak", false)] [("send_messages", true)] [("connect", false)]
     (by decide)⟩

theorem patternMatch_abort (fails : Nat → Option String)
    (guild : Guild) (rolePattern channelPattern : String)
    (permissionsDict : List (String × Bool)) (st : BotState)
    (h : guild.roles.filter (fun r => patternInName rolePattern r.name) = [] ∨
      guild.channels.filter (fun c => patternInName channelPattern c.name) = []) :
    patternMatchPermissions fails guild rolePattern channelPattern
      permissionsDict st = ([], st) := by
  rcases h with h | h
  · simp [patternMatchPermissions, h]
  · simp only [patternMatchPermissions, h, List.isEmpty_nil]
    split
    · rfl
    · rfl

/-- C6: a Pattern Match whose role substring matches no role or whose
channel substring matches no channel aborts before any write: it returns
the empty result map and leaves the whole state (overwrite store and
operation log, hence also the captured pre-images) unchanged. -/
theorem patternMatch_empty_match_aborts (fails : Nat → Option String)
    (guild : Guild) (rolePattern channelPattern : String)
    (permissionsDict : List (String × Bool)) (st : BotState)
    (h : guild.roles.filter (fun r => patternInName rolePattern r.name) = [] ∨
      guild.channels.filter (fun c => patternInName channelPattern c.name) = []) :
    patternMatchPermissions fails guild rolePattern channelPattern
      permissionsDict st = ([], st) :=
  patternMatch_abort fails guild rolePattern channelPattern permissionsDict st h

/-- Witness for C6 at a concrete input: the pattern `"zz"` matches no
role of a one-role guild, and the call returns the untouched state. -/
theorem patternMatch_empty_match_aborts_witness :
    ((Guild.mk 1 "g" [Role.mk 10 "admin"] [Channel.mk 5 "general" "text" none]).roles.filter
        (fun r => patternInName "zz" r.name) = [] ∨
      (Guild.mk 1 "g" [Role.mk 10 "admin"] [Channel.mk 5 "general" "text" none]).channels.filter
        (fun c => patternInName "gen" c.name) = []) ∧
    patternMatchPermissions (fun _ => none)
      (Guild.mk 1 "g" [Role.mk 10 "admin"] [Channel.mk 5 "general" "text" none])
      "zz" "gen" [("speak", true)]
      (BotState.mk (fun _ => []) none) =
      ([], BotState.mk (fun _ => []) none) :=
  ⟨by decide,
   patternMatch_empty_match_aborts (fun _ => none)
     (Guild.mk 1 "g" [Role.mk 10 "admin"] [Channel.mk 5 "general" "text" none])
     "zz" "gen" [("speak", true)] (BotState.mk (fun _ => []) none)
     (by decide)⟩

/-! Rollback lemmas. -/

theorem rollback_no_op (fails : Nat → Option String) (st : BotState)
    (h : st.lastOperation = none) :
    rollbackLastOperation fails st = (.nothingToRollback, st) := by
  simp [rollbackLastOperation, h]

theorem restoreChannels_fst (fails : Nat → Option String)
    (pre : List (Nat × ChannelOverwriteMap)) :
    ∀ (chans : List Channel) (ows : Nat → ChannelOverwriteMap),
      (restoreChannels fails pre chans ows).1 =
        !(chans.any fun c => (lookupKey pre c.id).isSome && (fails c.id).isSome) := by
  intro chans
  induction chans with
  | nil => intro ows; rfl
  | cons c rest ih =>
    intro ows
    simp only [restoreChannels, List.any_cons]
    cases h1 : lookupKey pre c.id with
    | none => simp [h1, ih]
    | some m =>
      cases h2 : fails c.id with
      | none => simp [h1, h2, ih]
      | some e => simp [h1, h2]

theorem rollbackWriteFailure_bulk (fails : Nat → Option String) (role : Role)
    (chans : List Channel) (pre : List (Nat × ChannelOverwriteMap))
    (perms : List (String × Bool)) (ows : Nat → ChannelOverwriteMap) :
    rollbackWriteFailure fails (.bulkRoleToChannel role chans pre perms) =
      !(restoreChannels fails pre chans ows).1 := by
  rw [restoreChannels_fst, Bool.not_not]
  rfl

theorem rollbackWriteFailure_pattern (fails : Nat → Option String)
    (rp cp : String) (mr : List Role) (mc : List Channel)
    (pre : List (Nat × ChannelOverwriteMap)) (perms : List (String × Bool))
    (ows : Nat → ChannelOverwriteMap) :
    rollbackWriteFailure fails (.patternMatch rp cp mr mc pre perms) =
      !(restoreChannels fails pre mc ows).1 := by
  rw [restoreChannels_fst, Bool.not_not]
  rfl

theorem rollback_outcome_of_some (fails : Nat → Option String) (st : BotState)
    (op : BatchOperation) (hop : st.lastOperation = some op) :
    (rollbackLastOperation fails st).1 =
      if rollbackWriteFailure fails op then .failure else .success := by
  cases op with
  | bulkRoleToChannel role chans pre perms =>
    rw [rollbackWriteFailure_bulk fails role chans pre perms st.ows]
    simp only [rollbackLastOperation, hop]
    cases hb : (restoreChannels fails pre chans st.ows).1 <;> simp [hb]
  | patternMatch rp cp mr mc pre perms =>
    rw [rollbackWriteFailure_pattern fails rp cp mr mc pre perms st.ows]
    simp only [rollbackLastOperation, hop]
    cases hb : (restoreChannels fails pre mc st.ows).1 <;> simp [hb]
  | copyPermissions src tgt pre =>
    simp only [rollbackLastOperation, hop, rollbackWriteFailure]
    by_cases hb : (fails tgt.id).isSome = true
    · simp [hb]
    · simp [hb]
  | importConfig pre f =>
    simp [rollbackLastOperation, hop, rollbackWriteFailure]

theorem rollback_ne_nothing_of_some (fails : Nat → Option String) (st : BotState)
    (op : BatchOperation) (hop : st.lastOperation = some op) :
    (rollbackLastOperation fails st).1 ≠ .nothingToRollback := by
  rw [rollback_outcome_of_some fails st op hop]
  cases h : rollbackWriteFailure fails op <;> simp

theorem rollback_failure_retains (fails : Nat → Option String) (st : BotState)
    (h : (rollbackLastOperation fails st).1 = .failure) :
    (rollbackLastOperation fails st).2.lastOperation = st.lastOperation := by
  cases hop : st.lastOperation with
  | none =>
    rw [rollback_no_op fails st hop]
    exact hop
  | some op =>
    cases op with
    | bulkRoleToChannel role chans pre perms =>
      simp only [rollbackLastOperation, hop] at h ⊢
      cases hb : (restoreChannels fails pre chans st.ows).1 <;> simp [hb] at h ⊢
    | patternMatch rp cp mr mc pre perms =>
      simp only [rollbackLastOperation, hop] at h ⊢
      cases hb : (restoreChannels fails pre mc st.ows).1 <;> simp [hb] at h ⊢
    | copyPermissions src tgt pre =>
      simp only [rollbackLastOperation, hop] at h ⊢
      cases hf : fails tgt.id <;> simp [hf] at h ⊢
      exact hop
    | importConfig pre f =>
      simp [rollbackLastOperation, hop] at h

theorem rollback_success_clears (fails : Nat → Option String) (st : BotState)
    (h : (rollbackLastOperation fails st).1 = .success) :
    (rollbackLastOperation fails st).2.lastOperation = none := by
  cases hop : st.lastOperation with
  | none =>
    rw [rollback_no_op fails st hop] at h
    simp at h
  | some op =>
    cases op with
    | bulkRoleToChannel role chans pre perms =>
      simp only [rollbackLastOperation, hop] at h ⊢
      cases hb : (restoreChannels fails pre chans st.ows).1 <;> simp [hb] at h ⊢
    | patternMatch rp cp mr mc pre perms =>
      simp only [rollbackLastOperation, hop] at h ⊢
      cases hb : (restoreChannels fails pre mc st.ows).1 <;> simp [hb] at h ⊢
    | copyPermissions src tgt pre =>
      simp only [rollbackLastOperation, hop] at h ⊢
      cases hf : fails tgt.id <;> simp [hf] at h ⊢
    | importConfig pre f =>
      simp [rollbackLastOperation, hop]

/-- C4: with nothing recorded, rollback is the reported no-op "nothing to
rollback" leaving the state untouched (and never that no-op when an
operation is recorded); the rollback reports failure exactly when one of
its restoring writes raises, and then the stored operation is retained
for retry; only a fully successful rollback clears it, so a second
rollback immediately after a successful one is the no-op again. -/
theorem rollback_lifecycle (fails fails2 : Nat → Option String) (st : BotState) :
    (st.lastOperation = none →
      rollbackLastOperation fails st = (.nothingToRollback, st)) ∧
    (∀ op, st.lastOperation = some op →
      (rollbackLastOperation fails st).1 ≠ .nothingToRollback) ∧
    (∀ op, st.lastOperation = some op →
      ((rollbackLastOperation fails st).1 = .failure ↔
        rollbackWriteFailure fails op = true)) ∧
    ((rollbackLastOperation fails st).1 = .failure →
      (rollbackLastOperation fails st).2.lastOperation = st.lastOperation) ∧
    ((rollbackLastOperation fails st).1 = .success →
      (rollbackLastOperation fails st).2.lastOperation = none) ∧
    ((rollbackLastOperation fails st).1 = .success →
      rollbackLastOperation fails2 (rollbackLastOperation fails st).2 =
        (.nothingToRollback, (rollbackLastOperation fails st).2)) := by
  refine ⟨fun h => rollback_no_op fails st h,
    fun op hop => rollback_ne_nothing_of_some fails st op hop,
    fun op hop => ?_,
    fun h => rollback_failure_retains fails st h,
    fun h => rollback_success_clears fails st h,
    fun h => rollback_no_op fails2 _ (rollback_success_clears fails st h)⟩
  rw [rollback_outcome_of_some fails st op hop]
  cases hb : rollbackWriteFailure fails op <;> simp [hb]

/-- Witness for C4 at concrete inputs: a recorded bulk operation over one
channel whose restoring write fails is reported failed and retained;
with no failures the rollback succeeds, clears the log, and a second
rollback is the no-op. -/
theorem rollback_lifecycle_witness :
    ((BotState.mk (fun _ => []) none).lastOperation = none →
      rollbackLastOperation (fun _ => some "e") (BotState.mk (fun _ => []) none) =
        (.nothingToRollback, BotState.mk (fun _ => []) none)) ∧
    ((rollbackLastOperation (fun _ => some "e")
        (BotState.mk (fun _ => [])
          (some (.bulkRoleToChannel (Role.mk 10 "mods")
            [Channel.mk 1 "general" "text" none]
            [(1, [(10, [("speak", true)])])] [("speak", false)])))).1 = .failure ↔
      rollbackWriteFailure (fun _ => some "e")
        (.bulkRoleToChannel (Role.mk 10 "mods")
          [Channel.mk 1 "general" "text" none]
          [(1, [(10, [("speak", true)])])] [("speak", false)]) = true) ∧
    ((rollbackLastOperation (fun _ => none)
        (BotState.mk (fun _ => [])
          (some (.bulkRoleToChannel (Role.mk 10 "mods")
            [Channel.mk 1 "general" "text" none]
            [(1, [(10, [("speak", true)])])] [("speak", false)])))).1 = .success →
      (rollbackLastOperation (fun _ => none)
        (BotState.mk (fun _ => [])
          (some (.bulkRoleToChannel (Role.mk 10 "mods")
            [Channel.mk 1 "general" "text" none]
            [(1, [(10, [("speak", true)])])] [("speak", false)])))).2.lastOperation = none) :=
  ⟨(rollback_lifecycle (fun _ => some "e") (fun _ => some "e")
      (BotState.mk (fun _ => []) none)).1,
   (rollback_lifecycle (fun _ => some "e") (fun _ => some "e")
      (BotState.mk (fun _ => [])
        (some (.bulkRoleToChannel (Role.mk 10 "mods")
          [Channel.mk 1 "general" "text" none]
          [(1, [(10, [("speak", true)])])] [("speak", false)])))).2.2.1
      (.bulkRoleToChannel (Role.mk 10 "mods")
        [Channel.mk 1 "general" "text" none]
        [(1, [(10, [("speak", true)])])] [("speak", false)]) rfl,
   (rollback_lifecycle (fun _ => none) (fun _ => none)
      (BotState.mk (fun _ => [])
        (some (.bulkRoleToChannel (Role.mk 10 "mods")
          [Channel.mk 1 "general" "text" none]
          [(1, [(10, [("speak", true)])])] [("speak", false)])))).2.2.2.2.1⟩

/-- C10: an aborted Pattern Match (empty role or channel match set) and a
Copy Overwrites whose single write raises both leave the previously
stored operation in place, and a subsequent rollback therefore acts on
that earlier operation instead of reporting "nothing to rollback". -/
theorem aborted_flows_retain_log (failsP failsC fails2 : Nat → Option String)
    (guild : Guild) (rolePattern channelPattern : String)
    (permissionsDict : List (String × Bool)) (source target : Channel)
    (e : String) (st : BotState) (op : BatchOperation)
    (hprev : st.lastOperation = some op)
    (hempty : guild.roles.filter (fun r => patternInName rolePattern r.name) = [] ∨
      guild.channels.filter (fun c => patternInName channelPattern c.name) = [])
    (hfail : failsC target.id = some e) :
    (patternMatchPermissions failsP guild rolePattern channelPattern
        permissionsDict st).2.lastOperation = some op ∧
    copyPermissionsOp failsC source target st = ("Failed: " ++ e, st) ∧
    (rollbackLastOperation fails2 st).1 ≠ .nothingToRollback := by
  refine ⟨?_, ?_, rollback_ne_nothing_of_some fails2 st op hprev⟩
  · rw [patternMatch_abort failsP guild rolePattern channelPattern
      permissionsDict st hempty]
    exact hprev
  · simp [copyPermissionsOp, hfail]

/-- Witness for C10 at concrete inputs: with a bulk operation stored, an
aborting pattern match and a failing copy retain it, and rollback does
not report "nothing to rollback". -/
theorem aborted_flows_retain_log_witness :
    ((BotState.mk (fun _ => [])
        (some (.importConfig [] "cfg.json"))).lastOperation =
      some (.importConfig [] "cfg.json")) ∧
    ((Guild.mk 1 "g" [Role.mk 10 "admin"] [Channel.mk 5 "general" "text" none]).roles.filter
        (fun r => patternInName "zz" r.name) = [] ∨
      (Guild.mk 1 "g" [Role.mk 10 "admin"] [Channel.mk 5 "general" "text" none]).channels.filter
        (fun c => patternInName "gen" c.name) = []) ∧
    ((fun cid => if cid = 7 then some "boom" else none) (Channel.mk 7 "target" "text" none).id =
      some "boom") ∧
    (patternMatchPermissions (fun _ => none)
        (Guild.mk 1 "g" [Role.mk 10 "admin"] [Channel.mk 5 "general" "text" none])
        "zz" "gen" [("speak", true)]
        (BotState.mk (fun _ => []) (some (.importConfig [] "cfg.json")))).2.lastOperation =
      some (.importConfig [] "cfg.json") ∧
    copyPermissionsOp (fun cid => if cid = 7 then some "boom" else none)
        (Channel.mk 6 "srcchan" "text" none) (Channel.mk 7 "target" "text" none)
        (BotState.mk (fun _ => []) (some (.importConfig [] "cfg.json"))) =
      ("Failed: " ++ "boom", BotState.mk (fun _ => []) (some (.importConfig [] "cfg.json"))) ∧
    (rollbackLastOperation (fun _ => none)
        (BotState.mk (fun _ => []) (some (.importConfig [] "cfg.json")))).1 ≠
      .nothingToRollback := by
  have h := aborted_flows_retain_log (fun _ => none)
    (fun cid => if cid = 7 then some "boom" else none) (fun _ => none)
    (Guild.mk 1 "g" [Role.mk 10 "admin"] [Channel.mk 5 "general" "text" none])
    "zz" "gen" [("speak", true)]
    (Channel.mk 6 "srcchan" "text" none) (Channel.mk 7 "target" "text" none)
    "boom"
    (BotState.mk (fun _ => []) (some (.importConfig [] "cfg.json")))
    (.importConfig [] "cfg.json") rfl (by decide) rfl
  exact ⟨rfl, by decide, rfl, h.1, h.2.1, h.2.2⟩

/-! Pre-image capture and restore lemmas. -/

theorem lookupKey_capture_fold (ows : Nat → ChannelOverwriteMap) :
    ∀ (chans : List Channel) (acc : List (Nat × ChannelOverwriteMap)) (cid : Nat),
      lookupKey (chans.foldl (fun acc c => setKey acc c.id (ows c.id)) acc) cid =
        if cid ∈ chans.map Channel.id then some (ows cid) else lookupKey acc cid := by
  intro chans
  induction chans with
  | nil =>
    intro acc cid
    simp
  | cons c rest ih =>
    intro acc cid
    rw [List.foldl_cons, ih]
    by_cases h1 : cid ∈ rest.map Channel.id
    · rw [if_pos h1, if_pos (by simp [h1])]
    · by_cases h2 : c.id = cid
      · subst h2
        rw [if_neg h1, if_pos (by simp), lookupKey_setKey_self]
      · have hmem : cid ∉ (c :: rest).map Channel.id := by
          simp only [List.map_cons, List.mem_cons, not_or]
          exact ⟨fun h => h2 h.symm, h1⟩
        rw [if_neg h1, if_neg hmem, lookupKey_setKey_ne _ _ _ _ h2]

theorem lookupKey_captureOverwrites (ows : Nat → ChannelOverwriteMap)
    (chans : List Channel) (cid : Nat) :
    lookupKey (captureOverwrites ows chans) cid =
      if cid ∈ chans.map Channel.id then some (ows cid) else none := by
  rw [captureOverwrites, lookupKey_capture_fold, lookupKey_nil]

theorem restoreChannels_ows_at (fails : Nat → Option String)
    (pre : List (Nat × ChannelOverwriteMap)) :
    ∀ (chans : List Channel) (ows : Nat → ChannelOverwriteMap) (cid : Nat),
      (restoreChannels fails pre chans ows).2 cid = ows cid ∨
        lookupKey pre cid = some ((restoreChannels fails pre chans ows).2 cid) := by
  intro chans
  induction chans with
  | nil =>
    intro ows cid
    exact Or.inl rfl
  | cons c rest ih =>
    intro ows cid
    simp only [restoreChannels]
    cases h1 : lookupKey pre c.id with
    | none => exact ih ows cid
    | some m =>
      cases h2 : fails c.id with
      | some e => exact Or.inl rfl
      | none =>
        rcases ih (writeOw ows c.id m) cid with h | h
        · rw [h]
          by_cases hc : cid = c.id
          · subst hc
            right
            rw [writeOw, if_pos rfl]
            exact h1
          · left
            rw [writeOw, if_neg hc]
        · exact Or.inr h

theorem restoreChannels_success_restores (fails : Nat → Option String)
    (pre : List (Nat × ChannelOverwriteMap)) :
    ∀ (chans : List Channel) (ows : Nat → ChannelOverwriteMap),
      (restoreChannels fails pre chans ows).1 = true →
      ∀ c ∈ chans, ∀ m, lookupKey pre c.id = some m →
        (restoreChannels fails pre chans ows).2 c.id = m := by
  intro chans
  induction chans with
  | nil =>
    intro ows _ c hc
    simp at hc
  | cons c0 rest ih =>
    intro ows
    simp only [restoreChannels]
    cases h1 : lookupKey pre c0.id with
    | none =>
      intro hfst c hc m hm
      rcases List.mem_cons.mp hc with h | hc2
      · subst h
        rw [h1] at hm
        cases hm
      · exact ih ows hfst c hc2 m hm
    | some m0 =>
      cases h2 : fails c0.id with
      | some e =>
        intro hfst
        cases hfst
      | none =>
        intro hfst c hc m hm
        rcases List.mem_cons.mp hc with h | hc2
        · subst h
          rw [h1] at hm
          injection hm with hm
          rcases restoreChannels_ows_at fails pre rest (writeOw ows c.id m0) c.id with hw | hw
          · rw [hw, writeOw, if_pos rfl]
            exact hm
          · rw [h1] at hw
            injection hw with hw
            rw [← hw]
            exact hm
        · exact ih (writeOw ows c0.id m0) hfst c hc2 m hm

/-! Shapes of the operations' results and of rollback on known states. -/

theorem bulk_run (fails : Nat → Option String) (role : Role)
    (chans : List Channel) (pd : List (String × Bool)) (st : BotState) :
    bulkRoleToChannelPermissions fails role chans pd st =
      ((chans.foldl (bulkStep fails role pd) ([], st.ows)).1,
       ⟨(chans.foldl (bulkStep fails role pd) ([], st.ows)).2,
        some (.bulkRoleToChannel role chans (captureOverwrites st.ows chans) pd)⟩) := rfl

theorem patternMatch_nonempty (fails : Nat → Option String) (guild : Guild)
    (rp cp : String) (pd : List (String × Bool)) (st : BotState)
    (h1 : guild.roles.filter (fun r => patternInName rp r.name) ≠ [])
    (h2 : guild.channels.filter (fun c => patternInName cp c.name) ≠ []) :
    patternMatchPermissions fails guild rp cp pd st =
      (((guild.roles.filter (fun r => patternInName rp r.name)).foldl
          (patternStep fails pd (guild.channels.filter (fun c => patternInName cp c.name)))
          ([], st.ows)).1,
       ⟨((guild.roles.filter (fun r => patternInName rp r.name)).foldl
          (patternStep fails pd (guild.channels.filter (fun c => patternInName cp c.name)))
          ([], st.ows)).2,
        some (.patternMatch rp cp
          (guild.roles.filter (fun r => patternInName rp r.name))
          (guild.channels.filter (fun c => patternInName cp c.name))
          (captureOverwrites st.ows
            (guild.channels.filter (fun c => patternInName cp c.name))) pd)⟩) := by
  rw [patternMatchPermissions]
  rw [if_neg (by simpa [List.isEmpty_iff] using h1),
    if_neg (by simpa [List.isEmpty_iff] using h2)]

theorem rollback_bulk_state (fails : Nat → Option String)
    (ows1 : Nat → ChannelOverwriteMap) (role : Role) (chans : List Channel)
    (pre : List (Nat × ChannelOverwriteMap)) (perms : List (String × Bool)) :
    rollbackLastOperation fails ⟨ows1, some (.bulkRoleToChannel role chans pre perms)⟩ =
      if (restoreChannels fails pre chans ows1).1 then
        (.success, ⟨(restoreChannels fails pre chans ows1).2, none⟩)
      else
        (.failure, ⟨(restoreChannels fails pre chans ows1).2,
          some (.bulkRoleToChannel role chans pre perms)⟩) := rfl

theorem rollback_pattern_state (fails : Nat → Option String)
    (ows1 : Nat → ChannelOverwriteMap) (rp cp : String) (mr : List Role)
    (mc : List Channel) (pre : List (Nat × ChannelOverwriteMap))
    (perms : List (String × Bool)) :
    rollbackLastOperation fails ⟨ows1, some (.patternMatch rp cp mr mc pre perms)⟩ =
      if (restoreChannels fails pre mc ows1).1 then
        (.success, ⟨(restoreChannels fails pre mc ows1).2, none⟩)
      else
        (.failure, ⟨(restoreChannels fails pre mc ows1).2,
          some (.patternMatch rp cp mr mc pre perms)⟩) := rfl

theorem rollback_copy_state (fails : Nat → Option String)
    (ows1 : Nat → ChannelOverwriteMap) (src tgt : Channel)
    (pre : ChannelOverwriteMap) :
    rollbackLastOperation fails ⟨ows1, some (.copyPermissions src tgt pre)⟩ =
      if (fails tgt.id).isSome then
        (.failure, ⟨ows1, some (.copyPermissions src tgt pre)⟩)
      else
        (.success, ⟨writeOw ows1 tgt.id pre, none⟩) := rfl

theorem failed_ne_success (e : String) : ("Failed: " ++ e) ≠ "Success" := by
  intro h
  have h3 : ("Failed: " ++ e).data.head? = some 'F' := rfl
  rw [h] at h3
  exact absurd h3 (by decide)

/-- C1: after each of the three batch operations (Role→Channels, a
Pattern Match that did not abort, a Copy Overwrites whose write
succeeded), a successful rollback with no intervening operation restores
every channel touched by the operation to its exact pre-operation
overwrite map: the pre-image captured before the first write is the true
pre-operation state, and rollback writes it back verbatim. -/
theorem rollback_restores_preimages (failsOp fails2 : Nat → Option String)
    (role : Role) (channels : List Channel) (guild : Guild)
    (rolePattern channelPattern : String)
    (permissionsDict : List (String × Bool)) (source target : Channel)
    (st : BotState) :
    ((rollbackLastOperation fails2
        (bulkRoleToChannelPermissions failsOp role channels permissionsDict st).2).1 =
          .success →
      ∀ c ∈ channels,
        (rollbackLastOperation fails2
          (bulkRoleToChannelPermissions failsOp role channels
            permissionsDict st).2).2.ows c.id = st.ows c.id) ∧
    (guild.roles.filter (fun r => patternInName rolePattern r.name) ≠ [] →
      guild.channels.filter (fun c => patternInName channelPattern c.name) ≠ [] →
      (rollbackLastOperation fails2
        (patternMatchPermissions failsOp guild rolePattern channelPattern
          permissionsDict st).2).1 = .success →
      ∀ c ∈ guild.channels.filter (fun c => patternInName channelPattern c.name),
        (rollbackLastOperation fails2
          (patternMatchPermissions failsOp guild rolePattern channelPattern
            permissionsDict st).2).2.ows c.id = st.ows c.id) ∧
    ((copyPermissionsOp failsOp source target st).1 = "Success" →
      (rollbackLastOperation fails2
        (copyPermissionsOp failsOp source target st).2).1 = .success →
      (rollbackLastOperation fails2
        (copyPermissionsOp failsOp source target st).2).2.ows target.id =
          st.ows target.id) := by
  refine ⟨?_, ?_, ?_⟩
  · intro hsucc c hc
    rw [bulk_run, rollback_bulk_state] at hsucc ⊢
    by_cases hb : (restoreChannels fails2 (captureOverwrites st.ows channels)
        channels (channels.foldl (bulkStep failsOp role permissionsDict) ([], st.ows)).2).1 = true
    · rw [if_pos hb]
      refine restoreChannels_success_restores fails2 _ channels _ hb c hc _ ?_
      rw [lookupKey_captureOverwrites, if_pos (List.mem_map_of_mem Channel.id hc)]
    · rw [if_neg hb] at hsucc
      cases hsucc
  · intro hne1 hne2 hsucc c hc
    rw [patternMatch_nonempty failsOp guild rolePattern channelPattern
      permissionsDict st hne1 hne2, rollback_pattern_state] at hsucc ⊢
    by_cases hb : (restoreChannels fails2
        (captureOverwrites st.ows
          (guild.channels.filter (fun c => patternInName channelPattern c.name)))
        (guild.channels.filter (fun c => patternInName channelPattern c.name))
        ((guild.roles.filter (fun r => patternInName rolePattern r.name)).foldl
          (patternStep failsOp permissionsDict
            (guild.channels.filter (fun c => patternInName channelPattern c.name)))
          ([], st.ows)).2).1 = true
    · rw [if_pos hb]
      refine restoreChannels_success_restores fails2 _ _ _ hb c hc _ ?_
      rw [lookupKey_captureOverwrites, if_pos (List.mem_map_of_mem Channel.id hc)]
    · rw [if_neg hb] at hsucc
      cases hsucc
  · intro hcopy hsucc
    cases hf : failsOp target.id with
    | some e =>
      rw [copyPermissionsOp] at hcopy
      rw [hf] at hcopy
      exact absurd hcopy (failed_ne_success e)
    | none =>
      rw [copyPermissionsOp] at hsucc ⊢
      rw [hf] at hsucc ⊢
      rw [rollback_copy_state] at hsucc ⊢
      by_cases hb : (fails2 target.id).isSome = true
      · rw [if_pos hb] at hsucc
        cases hsucc
      · rw [if_neg hb]
        simp [writeOw]

/-- Witness for C1 at concrete inputs: each of the three flows followed
by a failure-free rollback leaves the touched channels with their
original maps. -/
theorem rollback_restores_preimages_witness :
    ((rollbackLastOperation (fun _ => none)
        (bulkRoleToChannelPermissions (fun _ => none) (Role.mk 10 "mods")
          [Channel.mk 1 "general" "text" none, Channel.mk 2 "lobby" "text" none]
          [("send_messages", true)]
          (BotState.mk (fun cid => if cid = 1 then [(10, [("speak", true)])] else [])
            none)).2).1 = .success) ∧
    (∀ c ∈ [Channel.mk 1 "general" "text" none, Channel.mk 2 "lobby" "text" none],
      (rollbackLastOperation (fun _ => none)
        (bulkRoleToChannelPermissions (fun _ => none) (Role.mk 10 "mods")
          [Channel.mk 1 "general" "text" none, Channel.mk 2 "lobby" "text" none]
          [("send_messages", true)]
          (BotState.mk (fun cid => if cid = 1 then [(10, [("speak", true)])] else [])
            none)).2).2.ows c.id =
        (fun cid => if cid = 1 then [(10, [("speak", true)])] else []) c.id) ∧
    (∀ c ∈ (Guild.mk 1 "g" [Role.mk 10 "mods"]
        [Channel.mk 1 "general" "text" none]).channels.filter
          (fun c => patternInName "gen" c.name),
      (rollbackLastOperation (fun _ => none)
        (patternMatchPermissions (fun _ => none)
          (Guild.mk 1 "g" [Role.mk 10 "mods"] [Channel.mk 1 "general" "text" none])
          "mod" "gen" [("send_messages", false)]
          (BotState.mk (fun cid => if cid = 1 then [(10, [("speak", true)])] else [])
            none)).2).2.ows c.id =
        (fun cid => if cid = 1 then [(10, [("speak", true)])] else []) c.id) ∧
    ((rollbackLastOperation (fun _ => none)
        (copyPermissionsOp (fun _ => none) (Channel.mk 1 "general" "text" none)
          (Channel.mk 2 "lobby" "text" none)
          (BotState.mk (fun cid => if cid = 1 then [(10, [("speak", true)])] else [])
            none)).2).2.ows (Channel.mk 2 "lobby" "text" none).id =
      (fun cid => if cid = 1 then [(10, [("speak", true)])] else []) (Channel.mk 2 "lobby" "text" none).id) := by
  refine ⟨by decide, ?_, ?_, ?_⟩
  · exact (rollback_restores_preimages (fun _ => none) (fun _ => none)
      (Role.mk 10 "mods")
      [Channel.mk 1 "general" "text" none, Channel.mk 2 "lobby" "text" none]
      (Guild.mk 1 "g" [Role.mk 10 "mods"] [Channel.mk 1 "general" "text" none])
      "mod" "gen" [("send_messages", true)]
      (Channel.mk 1 "general" "text" none) (Channel.mk 2 "lobby" "text" none)
      (BotState.mk (fun cid => if cid = 1 then [(10, [("speak", true)])] else [])
        none)).1 (by decide)
  · exact (rollback_restores_preimages (fun _ => none) (fun _ => none)
      (Role.mk 10 "mods")
      [Channel.mk 1 "general" "text" none, Channel.mk 2 "lobby" "text" none]
      (Guild.mk 1 "g" [Role.mk 10 "mods"] [Channel.mk 1 "general" "text" none])
      "mod" "gen" [("send_messages", false)]
      (Channel.mk 1 "general" "text" none) (Channel.mk 2 "lobby" "text" none)
      (BotState.mk (fun cid => if cid = 1 then [(10, [("speak", true)])] else [])
        none)).2.1 (by decide) (by decide) (by decide)
  · exact (rollback_restores_preimages (fun _ => none) (fun _ => none)
      (Role.mk 10 "mods")
      [Channel.mk 1 "general" "text" none, Channel.mk 2 "lobby" "text" none]
      (Guild.mk 1 "g" [Role.mk 10 "mods"] [Channel.mk 1 "general" "text" none])
      "mod" "gen" [("send_messages", true)]
      (Channel.mk 1 "general" "text" none) (Channel.mk 2 "lobby" "text" none)
      (BotState.mk (fun cid => if cid = 1 then [(10, [("speak", true)])] else [])
        none)).2.2 (by decide) (by decide)

/-! Result-map lemmas for the bulk write loop. -/

theorem bulk_fold_results_frame (fails : Nat → Option String) (role : Role)
    (pd : List (String × Bool)) :
    ∀ (chans : List Channel)
      (acc : List (String × String) × (Nat → ChannelOverwriteMap)) (name : String),
      name ∉ chans.map Channel.name →
      lookupKey (chans.foldl (bulkStep fails role pd) acc).1 name =
        lookupKey acc.1 name := by
  intro chans
  induction chans with
  | nil =>
    intro acc name _
    rfl
  | cons c rest ih =>
    intro acc name h
    simp only [List.map_cons, List.mem_cons, not_or] at h
    rw [List.foldl_cons, ih _ _ h.2]
    cases hf : fails c.id with
    | none =>
      simp only [bulkStep, hf]
      exact lookupKey_setKey_ne _ _ _ _ (fun he => h.1 he.symm)
    | some e =>
      simp only [bulkStep, hf]
      exact lookupKey_setKey_ne _ _ _ _ (fun he => h.1 he.symm)

theorem bulkStep_results (fails : Nat → Option String) (role : Role)
    (pd : List (String × Bool))
    (acc : List (String × String) × (Nat → ChannelOverwriteMap)) (c : Channel) :
    (bulkStep fails role pd acc c).1 =
      setKey acc.1 c.name
        (match fails c.id with
         | none => "Success"
         | some e => "Failed: " ++ e) := by
  cases hf : fails c.id with
  | none => simp [bulkStep, hf]
  | some e => simp [bulkStep, hf]

theorem bulk_fold_results (fails : Nat → Option String) (role : Role)
    (pd : List (String × Bool)) :
    ∀ (chans : List Channel)
      (acc : List (String × String) × (Nat → ChannelOverwriteMap)),
      (chans.map Channel.name).Nodup →
      ∀ c ∈ chans,
        lookupKey (chans.foldl (bulkStep fails role pd) acc).1 c.name =
          some (match fails c.id with
                | none => "Success"
                | some e => "Failed: " ++ e) := by
  intro chans
  induction chans with
  | nil =>
    intro acc _ c hc
    simp at hc
  | cons c0 rest ih =>
    intro acc hnd c hc
    simp only [List.map_cons, List.nodup_cons] at hnd
    rw [List.foldl_cons]
    rcases List.mem_cons.mp hc with h | hc2
    · subst h
      rw [bulk_fold_results_frame fails role pd rest _ _ hnd.1,
        bulkStep_results, lookupKey_setKey_self]
    · exact ih _ hnd.2 c hc2

/-- C3 counterexample: the claim fails as stated because the result map
is keyed by channel name.  In a Role→Channels batch over two distinct
channels that share the name "general", where the write to channel id 1
fails and the write to channel id 2 succeeds, the returned map's only
entry for "general" reads "Success": channel id 1's failure is not
recorded anywhere in the result map. -/
theorem bulk_result_map_counterexample :
    (fun cid => if cid = 1 then some "forbidden" else (none : Option String))
        (Channel.mk 1 "general" "text" none).id = some "forbidden" ∧
    Channel.mk 1 "general" "text" none ∈
      [Channel.mk 1 "general" "text" none, Channel.mk 2 "general" "text" none] ∧
    lookupKey (bulkRoleToChannelPermissions
        (fun cid => if cid = 1 then some "forbidden" else none)
        (Role.mk 10 "mods")
        [Channel.mk 1 "general" "text" none, Channel.mk 2 "general" "text" none]
        [("speak", true)]
        (BotState.mk (fun _ => []) none)).1
        (Channel.mk 1 "general" "text" none).name = some "Success" :=
  ⟨rfl, by decide, by decide⟩

/-- C3 (amended): for a Role→Channels batch over channels with pairwise
distinct names, a failing write on one channel does not stop the others:
every channel gets a result-map entry carrying its own success or failure
status, and the recorded operation holds pre-images for all channels in
the batch, so rollback remains possible for the writes that succeeded. -/
theorem bulk_partial_failure (fails : Nat → Option String) (role : Role)
    (channels : List Channel) (pd : List (String × Bool)) (st : BotState)
    (hnames : (channels.map Channel.name).Nodup) :
    (∀ c ∈ channels,
      lookupKey (bulkRoleToChannelPermissions fails role channels pd st).1 c.name =
        some (match fails c.id with
              | none => "Success"
              | some e => "Failed: " ++ e)) ∧
    (∃ pre,
      (bulkRoleToChannelPermissions fails role channels pd st).2.lastOperation =
        some (.bulkRoleToChannel role channels pre pd) ∧
      ∀ c ∈ channels, lookupKey pre c.id = some (st.ows c.id)) := by
  refine ⟨?_, captureOverwrites st.ows channels, rfl, ?_⟩
  · intro c hc
    rw [bulk_run]
    exact bulk_fold_results fails role pd channels ([], st.ows) hnames c hc
  · intro c hc
    rw [lookupKey_captureOverwrites, if_pos (List.mem_map_of_mem Channel.id hc)]

/-- Witness for C3 (amended) at the spec's scenario: three channels with
distinct names, the write to the second fails; channels 1 and 3 read
"Success", channel 2 reads its failure, and the stored operation carries
pre-images for all three. -/
theorem bulk_partial_failure_witness :
    (([Channel.mk 1 "a" "text" none, Channel.mk 2 "b" "text" none,
        Channel.mk 3 "c" "text" none].map Channel.name).Nodup) ∧
    (∀ c ∈ [Channel.mk 1 "a" "text" none, Channel.mk 2 "b" "text" none,
        Channel.mk 3 "c" "text" none],
      lookupKey (bulkRoleToChannelPermissions
          (fun cid => if cid = 2 then some "denied" else none)
          (Role.mk 10 "mods")
          [Channel.mk 1 "a" "text" none, Channel.mk 2 "b" "text" none,
            Channel.mk 3 "c" "text" none]
          [("speak", true)]
          (BotState.mk (fun cid => if cid = 1 then [(10, [("connect", false)])] else [])
            none)).1 c.name =
        some (match (fun cid => if cid = 2 then some "denied" else none : Nat → Option String) c.id with
              | none => "Success"
              | some e => "Failed: " ++ e)) ∧
    (∃ pre,
      (bulkRoleToChannelPermissions
          (fun cid => if cid = 2 then some "denied" else none)
          (Role.mk 10 "mods")
          [Channel.mk 1 "a" "text" none, Channel.mk 2 "b" "text" none,
            Channel.mk 3 "c" "text" none]
          [("speak", true)]
          (BotState.mk (fun cid => if cid = 1 then [(10, [("connect", false)])] else [])
            none)).2.lastOperation =
        some (.bulkRoleToChannel (Role.mk 10 "mods")
          [Channel.mk 1 "a" "text" none, Channel.mk 2 "b" "text" none,
            Channel.mk 3 "c" "text" none] pre [("speak", true)]) ∧
      ∀ c ∈ [Channel.mk 1 "a" "text" none, Channel.mk 2 "b" "text" none,
          Channel.mk 3 "c" "text" none],
        lookupKey pre c.id =
          some ((fun cid => if cid = 1 then [(10, [("connect", false)])] else []) c.id)) :=
  ⟨by decide,
   (bulk_partial_failure (fun cid => if cid = 2 then some "denied" else none)
      (Role.mk 10 "mods")
      [Channel.mk 1 "a" "text" none, Channel.mk 2 "b" "text" none,
        Channel.mk 3 "c" "text" none]
      [("speak", true)]
      (BotState.mk (fun cid => if cid = 1 then [(10, [("connect", false)])] else []) none)
      (by decide)).1,
   (bulk_partial_failure (fun cid => if cid = 2 then some "denied" else none)
      (Role.mk 10 "mods")
      [Channel.mk 1 "a" "text" none, Channel.mk 2 "b" "text" none,
        Channel.mk 3 "c" "text" none]
      [("speak", true)]
      (BotState.mk (fun cid => if cid = 1 then [(10, [("connect", false)])] else []) none)
      (by decide)).2⟩

/-! Export lemmas. -/

theorem permissions_nodup : permissions.Nodup := by decide

theorem lookupKey_filterMapLookup (o : PermissionOverwrite) :
    ∀ (L : List String) (p : String),
      lookupKey (L.filterMap (fun q => (lookupKey o q).map (fun v => (q, v)))) p =
        if p ∈ L then lookupKey o p else none := by
  intro L
  induction L with
  | nil =>
    intro p
    simp [lookupKey_nil]
  | cons q rest ih =>
    intro p
    cases hq : lookupKey o q with
    | some v =>
      simp only [List.filterMap_cons, hq, Option.map_some']
      by_cases hp : q = p
      · subst hp
        rw [lookupKey_cons_self, if_pos (List.mem_cons_self _ _), hq]
      · rw [lookupKey_cons_ne _ _ _ _ hp, ih]
        have hne : ¬ p = q := fun h => hp h.symm
        simp [List.mem_cons, hne]
    | none =>
      simp only [List.filterMap_cons, hq, Option.map_none']
      rw [ih]
      by_cases hp : q = p
      · subst hp
        by_cases hr : q ∈ rest <;> simp [hr, hq]
      · have hne : ¬ p = q := fun h => hp h.symm
        simp [List.mem_cons, hne]

theorem lookup_exportOverwriteData (o : PermissionOverwrite) (p : String) :
    lookupKey (exportOverwriteData o) p =
      if p ∈ permissions then lookupKey o p else none :=
  lookupKey_filterMapLookup o permissions p

theorem mem_exportOverwriteData (o : PermissionOverwrite) (e : String × Bool)
    (he : e ∈ exportOverwriteData o) :
    e.1 ∈ permissions ∧ lookupKey o e.1 = some e.2 := by
  rw [exportOverwriteData] at he
  obtain ⟨q, hq, heq⟩ := List.mem_filterMap.mp he
  cases hv : lookupKey o q with
  | none =>
    rw [hv] at heq
    cases heq
  | some v =>
    rw [hv, Option.map_some'] at heq
    injection heq with heq
    subst heq
    exact ⟨hq, hv⟩

theorem keys_filterMapLookup (o : PermissionOverwrite) :
    ∀ L : List String,
      (L.filterMap (fun q => (lookupKey o q).map (fun v => (q, v)))).map Prod.fst =
        L.filter (fun p => (lookupKey o p).isSome) := by
  intro L
  induction L with
  | nil => rfl
  | cons q rest ih =>
    cases hq : lookupKey o q with
    | some v =>
      simp only [List.filterMap_cons, hq, Option.map_some', List.map_cons,
        List.filter_cons, Option.isSome_some]
      rw [ih]
      rfl
    | none =>
      simp only [List.filterMap_cons, hq, Option.map_none', List.filter_cons,
        Option.isSome_none]
      rw [ih]
      rfl

theorem keys_exportOverwriteData (o : PermissionOverwrite) :
    (exportOverwriteData o).map Prod.fst =
      permissions.filter (fun p => (lookupKey o p).isSome) :=
  keys_filterMapLookup o permissions

theorem exportOverwriteData_nil_inherit (o : PermissionOverwrite)
    (h : exportOverwriteData o = []) :
    ∀ p ∈ permissions, lookupKey o p = none := by
  intro p hp
  have h2 := lookup_exportOverwriteData o p
  rw [h, lookupKey_nil, if_pos hp] at h2
  exact h2.symm

theorem mem_exportChannelOverwrites (m : ChannelOverwriteMap)
    (e : Nat × List (String × Bool)) (he : e ∈ exportChannelOverwrites m) :
    ∃ rp ∈ m, e.1 = rp.1 ∧ e.2 = exportOverwriteData rp.2 ∧
      (exportOverwriteData rp.2).isEmpty = false := by
  rw [exportChannelOverwrites] at he
  obtain ⟨rp, hrp, heq⟩ := List.mem_filterMap.mp he
  by_cases hd : (exportOverwriteData rp.2).isEmpty = true
  · rw [if_pos hd] at heq
    cases heq
  · rw [if_neg hd] at heq
    injection heq with heq
    subst heq
    exact ⟨rp, hrp, rfl, rfl, Bool.not_eq_true _ ▸ hd⟩

theorem mem_exportChannelOverwrites_of_mem (m : ChannelOverwriteMap)
    (rp : Nat × PermissionOverwrite) (hrp : rp ∈ m)
    (hd : (exportOverwriteData rp.2).isEmpty = false) :
    (rp.1, exportOverwriteData rp.2) ∈ exportChannelOverwrites m := by
  rw [exportChannelOverwrites]
  refine List.mem_filterMap.mpr ⟨rp, hrp, ?_⟩
  rw [if_neg (by rw [hd]; exact Bool.false_ne_true)]

theorem keys_exportChannelOverwrites_subset (m : ChannelOverwriteMap) :
    ∀ k ∈ (exportChannelOverwrites m).map Prod.fst, k ∈ m.map Prod.fst := by
  intro k hk
  obtain ⟨e, he, hek⟩ := List.mem_map.mp hk
  obtain ⟨rp, hrp, h1, _, _⟩ := mem_exportChannelOverwrites m e he
  subst hek
  rw [h1]
  exact List.mem_map_of_mem Prod.fst hrp

theorem exportChannelOverwrites_cons_empty (rp : Nat × PermissionOverwrite)
    (rest : ChannelOverwriteMap)
    (hd : (exportOverwriteData rp.2).isEmpty = true) :
    exportChannelOverwrites (rp :: rest) = exportChannelOverwrites rest := by
  have hd2 : exportOverwriteData rp.2 = [] := List.isEmpty_iff.mp hd
  simp [exportChannelOverwrites, List.filterMap_cons, hd2]

theorem exportChannelOverwrites_cons (rp : Nat × PermissionOverwrite)
    (rest : ChannelOverwriteMap)
    (hd : (exportOverwriteData rp.2).isEmpty = false) :
    exportChannelOverwrites (rp :: rest) =
      (rp.1, exportOverwriteData rp.2) :: exportChannelOverwrites rest := by
  have hd2 : exportOverwriteData rp.2 ≠ [] := by
    intro h
    rw [h] at hd
    cases hd
  simp [exportChannelOverwrites, List.filterMap_cons, hd2]

theorem keys_exportChannelOverwrites_nodup (m : ChannelOverwriteMap) :
    (m.map Prod.fst).Nodup →
    ((exportChannelOverwrites m).map Prod.fst).Nodup := by
  induction m with
  | nil =>
    intro _
    exact List.nodup_nil
  | cons rp rest ih =>
    intro hnd
    simp only [List.map_cons, List.nodup_cons] at hnd
    by_cases hd : (exportOverwriteData rp.2).isEmpty = true
    · rw [exportChannelOverwrites_cons_empty rp rest hd]
      exact ih hnd.2
    · rw [exportChannelOverwrites_cons rp rest (Bool.eq_false_iff.mpr hd)]
      simp only [List.map_cons, List.nodup_cons]
      refine ⟨?_, ih hnd.2⟩
      intro hmem
      exact hnd.1 (keys_exportChannelOverwrites_subset rest rp.1 hmem)

theorem lookup_mem_of_nodup (m : ChannelOverwriteMap)
    (hnd : (m.map Prod.fst).Nodup) (rp : Nat × PermissionOverwrite)
    (hrp : rp ∈ m) : lookupKey m rp.1 = some rp.2 :=
  lookupKey_of_mem_of_nodup m rp.1 rp.2 hnd (by rwa [Prod.mk.eta])

theorem lookup_exportChannelOverwrites_none (m : ChannelOverwriteMap)
    (rid : Nat) (h : lookupKey m rid = none) :
    lookupKey (exportChannelOverwrites m) rid = none := by
  rw [lookupKey_eq_none_iff]
  intro hmem
  exact (lookupKey_eq_none_iff m rid).mp h
    (keys_exportChannelOverwrites_subset m rid hmem)

theorem lookup_exportChannelOverwrites_some_empty (m : ChannelOverwriteMap)
    (hnd : (m.map Prod.fst).Nodup) (rid : Nat) (o : PermissionOverwrite)
    (h : lookupKey m rid = some o)
    (hd : (exportOverwriteData o).isEmpty = true) :
    lookupKey (exportChannelOverwrites m) rid = none := by
  rw [lookupKey_eq_none_iff]
  intro hmem
  obtain ⟨e, he, hek⟩ := List.mem_map.mp hmem
  obtain ⟨rp, hrp, h1, _, hd2⟩ := mem_exportChannelOverwrites m e he
  have hrid : rp.1 = rid := by rw [← h1, hek]
  have := lookup_mem_of_nodup m hnd rp hrp
  rw [hrid, h] at this
  injection this with this
  rw [← this] at hd2
  rw [hd] at hd2
  cases hd2

theorem lookup_exportChannelOverwrites_some (m : ChannelOverwriteMap)
    (hnd : (m.map Prod.fst).Nodup) (rid : Nat) (o : PermissionOverwrite)
    (h : lookupKey m rid = some o)
    (hd : (exportOverwriteData o).isEmpty = false) :
    lookupKey (exportChannelOverwrites m) rid = some (exportOverwriteData o) := by
  have hmem : (rid, o) ∈ m := mem_of_lookupKey_eq_some m rid o h
  have hmem2 := mem_exportChannelOverwrites_of_mem m (rid, o) hmem hd
  exact lookupKey_of_mem_of_nodup _ _ _
    (keys_exportChannelOverwrites_nodup m hnd) hmem2

/-! Import lemmas. -/

theorem getRole_some_id (guild : Guild) (k : Nat) (role : Role)
    (h : getRole guild k = some role) : role.id = k := by
  rw [getRole] at h
  have := List.find?_some h
  simpa using this

theorem getRole_of_exists (guild : Guild) (k : Nat)
    (h : ∃ r ∈ guild.roles, r.id = k) :
    ∃ role, getRole guild k = some role ∧ role.id = k := by
  obtain ⟨r, hr, hid⟩ := h
  cases hf : getRole guild k with
  | none =>
    rw [getRole] at hf
    have := List.find?_eq_none.mp hf r hr
    rw [hid] at this
    simp at this
  | some role => exact ⟨role, rfl, getRole_some_id guild k role hf⟩

theorem getChannel_some_id (guild : Guild) (k : Nat) (ch : Channel)
    (h : getChannel guild k = some ch) : ch.id = k := by
  rw [getChannel] at h
  have := List.find?_some h
  simpa using this

theorem getChannel_of_exists (guild : Guild) (k : Nat)
    (h : ∃ c ∈ guild.channels, c.id = k) :
    ∃ ch, getChannel guild k = some ch ∧ ch.id = k := by
  obtain ⟨c, hc, hid⟩ := h
  cases hf : getChannel guild k with
  | none =>
    rw [getChannel] at hf
    have := List.find?_eq_none.mp hf c hc
    rw [hid] at this
    simp at this
  | some ch => exact ⟨ch, rfl, getChannel_some_id guild k ch hf⟩

theorem importRoleStep_frame (guild : Guild) (acc : ChannelOverwriteMap)
    (rd : Nat × List (String × Bool)) (rid : Nat) (h : rd.1 ≠ rid) :
    lookupKey (importRoleStep guild acc rd) rid = lookupKey acc rid := by
  simp only [importRoleStep]
  cases hg : getRole guild rd.1 with
  | none => rfl
  | some role =>
    have hido := getRole_some_id guild rd.1 role hg
    exact lookupKey_setKey_ne _ _ _ _ (by rw [hido]; exact h)

theorem import_roles_fold_frame (guild : Guild) :
    ∀ (d : List (Nat × List (String × Bool))) (acc : ChannelOverwriteMap)
      (rid : Nat), (∀ e ∈ d, e.1 ≠ rid) →
      lookupKey (d.foldl (importRoleStep guild) acc) rid = lookupKey acc rid := by
  intro d
  induction d with
  | nil =>
    intro acc rid _
    rfl
  | cons rd rest ih =>
    intro acc rid h
    rw [List.foldl_cons, ih _ _ (fun e he => h e (List.mem_cons_of_mem _ he)),
      importRoleStep_frame guild acc rd rid (h rd (List.mem_cons_self _ _))]

theorem lookup_importChannelOverwrites_none (guild : Guild)
    (d : List (Nat × List (String × Bool))) (rid : Nat)
    (h : lookupKey d rid = none) :
    lookupKey (importChannelOverwrites guild d) rid = none := by
  rw [importChannelOverwrites,
    import_roles_fold_frame guild d [] rid
      (fun e he heq => (lookupKey_eq_none_iff d rid).mp h
        (heq ▸ List.mem_map_of_mem Prod.fst he)),
    lookupKey_nil]

theorem import_roles_fold_mem (guild : Guild) :
    ∀ (d : List (Nat × List (String × Bool))) (acc : ChannelOverwriteMap)
      (rid : Nat) (x : List (String × Bool)),
      ((d.map Prod.fst).Nodup) → (rid, x) ∈ d →
      (∃ r ∈ guild.roles, r.id = rid) →
      lookupKey (d.foldl (importRoleStep guild) acc) rid =
        some (importOverwriteRecord x) := by
  intro d
  induction d with
  | nil =>
    intro acc rid x _ hmem
    simp at hmem
  | cons rd rest ih =>
    intro acc rid x hnd hmem hres
    simp only [List.map_cons, List.nodup_cons] at hnd
    rw [List.foldl_cons]
    rcases List.mem_cons.mp hmem with h | h
    · have hfst : rd.1 = rid := by rw [← h]
      have hsnd : rd.2 = x := by rw [← h]
      rw [import_roles_fold_frame guild rest _ rid
        (fun e he heq => by
          apply hnd.1
          rw [hfst, ← heq]
          exact List.mem_map_of_mem Prod.fst he)]
      obtain ⟨role, hrole, hrid⟩ := getRole_of_exists guild rid hres
      simp only [importRoleStep, hfst, hrole]
      rw [hrid, hsnd, lookupKey_setKey_self]
    · exact ih _ rid x hnd.2 h hres

theorem lookup_importChannelOverwrites_some (guild : Guild)
    (d : List (Nat × List (String × Bool))) (rid : Nat)
    (x : List (String × Bool)) (hnd : (d.map Prod.fst).Nodup)
    (h : lookupKey d rid = some x) (hres : ∃ r ∈ guild.roles, r.id = rid) :
    lookupKey (importChannelOverwrites guild d) rid =
      some (importOverwriteRecord x) :=
  import_roles_fold_mem guild d [] rid x hnd
    (mem_of_lookupKey_eq_some d rid x h) hres

theorem getPerm_eq_lookupKey (o : PermissionOverwrite) (f : String) :
    getPerm o f = lookupKey o f := rfl

theorem importStep_frame (guild : Guild) (acc : Nat → ChannelOverwriteMap)
    (cd : ChannelConfig) (cid : Nat) (h : cd.id ≠ cid) :
    importStep guild acc cd cid = acc cid := by
  simp only [importStep]
  cases hg : getChannel guild cd.id with
  | none => rfl
  | some ch =>
    have hid := getChannel_some_id guild cd.id ch hg
    have hne : ¬ cid = ch.id := by
      intro hh
      apply h
      rw [← hid]
      exact hh.symm
    simp only [writeOw]
    rw [if_neg hne]

theorem import_channels_fold_frame (guild : Guild) :
    ∀ (L : List ChannelConfig) (acc : Nat → ChannelOverwriteMap) (cid : Nat),
      (∀ cd ∈ L, cd.id ≠ cid) →
      (L.foldl (importStep guild) acc) cid = acc cid := by
  intro L
  induction L with
  | nil =>
    intro acc cid _
    rfl
  | cons cd0 rest ih =>
    intro acc cid h
    rw [List.foldl_cons, ih _ _ (fun e he => h e (List.mem_cons_of_mem _ he)),
      importStep_frame guild acc cd0 cid (h cd0 (List.mem_cons_self _ _))]

theorem import_channels_fold_at (guild : Guild) :
    ∀ (L : List ChannelConfig) (acc : Nat → ChannelOverwriteMap)
      (cd : ChannelConfig), cd ∈ L → ((L.map ChannelConfig.id).Nodup) →
      (∃ ch ∈ guild.channels, ch.id = cd.id) →
      (L.foldl (importStep guild) acc) cd.id =
        importChannelOverwrites guild cd.overwrites := by
  intro L
  induction L with
  | nil =>
    intro acc cd hcd
    simp at hcd
  | cons cd0 rest ih =>
    intro acc cd hcd hnd hlive
    simp only [List.map_cons, List.nodup_cons] at hnd
    rw [List.foldl_cons]
    rcases List.mem_cons.mp hcd with h | h
    · subst h
      rw [import_channels_fold_frame guild rest _ cd.id
        (fun e he heq => by
          apply hnd.1
          rw [← heq]
          exact List.mem_map_of_mem ChannelConfig.id he)]
      obtain ⟨ch, hch, hchid⟩ := getChannel_of_exists guild cd.id hlive
      simp only [importStep, hch]
      rw [hchid]
      simp [writeOw]
    · exact ih _ cd h hnd.2 hlive

/-- The single-channel round trip: importing the serialization of one
channel overwrite map into the same role universe reproduces its
flag-states exactly. -/
theorem roundtrip_map (guild : Guild) (m : ChannelOverwriteMap)
    (hres : ∀ rd ∈ m, ∃ r ∈ guild.roles, r.id = rd.1)
    (hnd : (m.map Prod.fst).Nodup)
    (hwf : ∀ rd ∈ m, ∀ fb ∈ rd.2, fb.1 ∈ permissions) :
    ∀ (rid : Nat) (flag : String),
      rolePermState (importChannelOverwrites guild (exportChannelOverwrites m))
          rid flag =
        rolePermState m rid flag := by
  intro rid flag
  cases hm : lookupKey m rid with
  | none =>
    have he := lookup_exportChannelOverwrites_none m rid hm
    have hi := lookup_importChannelOverwrites_none guild _ rid he
    simp only [rolePermState, hi, hm]
  | some o =>
    have hmem : (rid, o) ∈ m := mem_of_lookupKey_eq_some m rid o hm
    have hkeys : ∀ fb ∈ o, fb.1 ∈ permissions := hwf (rid, o) hmem
    by_cases hd : (exportOverwriteData o).isEmpty = true
    · have he := lookup_exportChannelOverwrites_some_empty m hnd rid o hm hd
      have hi := lookup_importChannelOverwrites_none guild _ rid he
      simp only [rolePermState, hi, hm]
      by_cases hflag : flag ∈ permissions
      · exact (exportOverwriteData_nil_inherit o (List.isEmpty_iff.mp hd)
          flag hflag).symm
      · refine ((lookupKey_eq_none_iff o flag).mpr ?_).symm
        intro hmem2
        obtain ⟨fb, hfb, hfb1⟩ := List.mem_map.mp hmem2
        exact hflag (hfb1 ▸ hkeys fb hfb)
    · have hd2 : (exportOverwriteData o).isEmpty = false := Bool.eq_false_iff.mpr hd
      have he := lookup_exportChannelOverwrites_some m hnd rid o hm hd2
      have hednd : ((exportOverwriteData o).map Prod.fst).Nodup := by
        rw [keys_exportOverwriteData]
        exact permissions_nodup.filter _
      have hi := lookup_importChannelOverwrites_some guild _ rid _
        (keys_exportChannelOverwrites_nodup m hnd) he (hres (rid, o) hmem)
      simp only [rolePermState, hi, hm]
      by_cases hflag : flag ∈ permissions
      · cases ho : lookupKey o flag with
        | some b =>
          have hld : lookupKey (exportOverwriteData o) flag = some b := by
            rw [lookup_exportOverwriteData, if_pos hflag, ho]
          exact getPerm_applyPermissionsDict_of_mem [] _ flag b hednd
            (mem_of_lookupKey_eq_some _ _ _ hld) hflag
        | none =>
          have hld : lookupKey (exportOverwriteData o) flag = none := by
            rw [lookup_exportOverwriteData, if_pos hflag, ho]
          exact getPerm_applyPermissionsDict_of_not_key []
            (exportOverwriteData o) flag ((lookupKey_eq_none_iff _ _).mp hld)
      · have hnone : lookupKey o flag = none := by
          rw [lookupKey_eq_none_iff]
          intro hmem2
          obtain ⟨fb, hfb, hfb1⟩ := List.mem_map.mp hmem2
          exact hflag (hfb1 ▸ hkeys fb hfb)
        rw [hnone]
        exact getPerm_applyPermissionsDict_of_not_catalog []
          (exportOverwriteData o) flag hflag

/-- C7: the exported config serializes, inside each overwrite record,
exactly the flags explicitly set to Allow or Deny (every serialized pair
is the record's explicit tri-state, so an Inherit flag — absent,
`None` — is never written, and the serialized values are plain booleans,
never null), and a record with zero explicit entries is omitted from the
channel's serialized `overwrites` object. -/
theorem export_only_explicit (guild : Guild) (exportedAt : String)
    (st : BotState)
    (hrnd : ∀ c ∈ guild.channels, ((st.ows c.id).map Prod.fst).Nodup) :
    ∀ cd ∈ (exportConfig guild exportedAt st).channels,
      (∀ p ∈ cd.overwrites, p.2 ≠ [] ∧
        ∀ fb ∈ p.2, rolePermState (st.ows cd.id) p.1 fb.1 = some fb.2) ∧
      (∀ rd ∈ st.ows cd.id, rd.2 = [] →
        lookupKey cd.overwrites rd.1 = none) := by
  intro cd hcd
  simp only [exportConfig] at hcd
  obtain ⟨c, hc, hceq⟩ := List.mem_map.mp hcd
  subst hceq
  refine ⟨fun p hp => ?_, fun rd hrd hnil => ?_⟩
  · obtain ⟨rp, hrp, h1, h2, hd⟩ :=
      mem_exportChannelOverwrites (st.ows c.id) p hp
    refine ⟨?_, fun fb hfb => ?_⟩
    · rw [h2]
      intro hnil2
      rw [hnil2] at hd
      cases hd
    · have hfb2 : fb ∈ exportOverwriteData rp.2 := h2 ▸ hfb
      obtain ⟨hfbcat, hfbl⟩ := mem_exportOverwriteData rp.2 fb hfb2
      have hlm : lookupKey (st.ows c.id) rp.1 = some rp.2 :=
        lookup_mem_of_nodup _ (hrnd c hc) rp hrp
      rw [h1]
      show rolePermState (st.ows c.id) rp.1 fb.1 = some fb.2
      rw [rolePermState, hlm]
      exact hfbl
  · have hlm : lookupKey (st.ows c.id) rd.1 = some rd.2 :=
      lookup_mem_of_nodup _ (hrnd c hc) rd hrd
    rw [hnil] at hlm
    exact lookup_exportChannelOverwrites_some_empty (st.ows c.id)
      (hrnd c hc) rd.1 [] hlm (by rfl)

/-- Witness for C7 at a concrete input: a guild with one channel whose
map holds one record with a single explicit flag and one all-Inherit
record; the export serializes only the explicit flag and omits the empty
record. -/
theorem export_only_explicit_witness :
    (∀ c ∈ (Guild.mk 1 "g" [Role.mk 10 "mods", Role.mk 11 "everyone"]
        [Channel.mk 1 "general" "text" none]).channels,
      (((BotState.mk
        (fun cid => if cid = 1 then [(10, [("speak", true)]), (11, [])] else [])
        none).ows c.id).map Prod.fst).Nodup) ∧
    (∀ cd ∈ (exportConfig
        (Guild.mk 1 "g" [Role.mk 10 "mods", Role.mk 11 "everyone"]
          [Channel.mk 1 "general" "text" none]) "t"
        (BotState.mk
          (fun cid => if cid = 1 then [(10, [("speak", true)]), (11, [])] else [])
          none)).channels,
      (∀ p ∈ cd.overwrites, p.2 ≠ [] ∧
        ∀ fb ∈ p.2,
          rolePermState ((BotState.mk
            (fun cid => if cid = 1 then [(10, [("speak", true)]), (11, [])] else [])
            none).ows cd.id) p.1 fb.1 = some fb.2) ∧
      (∀ rd ∈ (BotState.mk
          (fun cid => if cid = 1 then [(10, [("speak", true)]), (11, [])] else [])
          none).ows cd.id, rd.2 = [] →
        lookupKey cd.overwrites rd.1 = none)) :=
  ⟨by decide,
   export_only_explicit
     (Guild.mk 1 "g" [Role.mk 10 "mods", Role.mk 11 "everyone"]
       [Channel.mk 1 "general" "text" none]) "t"
     (BotState.mk
       (fun cid => if cid = 1 then [(10, [("speak", true)]), (11, [])] else [])
       none)
     (by decide)⟩

/-- C8: exporting a guild's overwrite maps and importing the export into
the identical role/channel universe reproduces every channel's map
exactly at the level of flag states — each explicit Allow/Deny flag comes
back with the same state, and each flag omitted because it was Inherit
(including entire all-Inherit records, dropped by the export) is Inherit
again after the import. -/
theorem export_import_round_trip (guild : Guild)
    (exportedAt filename : String) (st : BotState)
    (hchan : (guild.channels.map Channel.id).Nodup)
    (hres : ∀ c ∈ guild.channels, ∀ rd ∈ st.ows c.id,
      ∃ r ∈ guild.roles, r.id = rd.1)
    (hrnd : ∀ c ∈ guild.channels, ((st.ows c.id).map Prod.fst).Nodup)
    (hwf : ∀ c ∈ guild.channels, ∀ rd ∈ st.ows c.id, ∀ fb ∈ rd.2,
      fb.1 ∈ permissions) :
    ∀ c ∈ guild.channels, ∀ (rid : Nat) (flag : String),
      rolePermState
        ((importConfigOp guild (exportConfig guild exportedAt st)
          filename st).ows c.id) rid flag =
        rolePermState (st.ows c.id) rid flag := by
  intro c hc rid flag
  have hcd : (ChannelConfig.mk c.id c.name c.ctype c.categoryId
      (exportChannelOverwrites (st.ows c.id))) ∈
      (exportConfig guild exportedAt st).channels := by
    simp only [exportConfig]
    exact List.mem_map_of_mem _ hc
  have hids : ((exportConfig guild exportedAt st).channels.map
      ChannelConfig.id).Nodup := by
    simp only [exportConfig, List.map_map]
    exact hchan
  have hlive : ∃ ch ∈ guild.channels,
      ch.id = (ChannelConfig.mk c.id c.name c.ctype c.categoryId
        (exportChannelOverwrites (st.ows c.id))).id := ⟨c, hc, rfl⟩
  have hows : (importConfigOp guild (exportConfig guild exportedAt st)
      filename st).ows c.id =
      importChannelOverwrites guild (exportChannelOverwrites (st.ows c.id)) :=
    import_channels_fold_at guild (exportConfig guild exportedAt st).channels
      st.ows _ hcd hids hlive
  rw [hows]
  exact roundtrip_map guild (st.ows c.id) (hres c hc) (hrnd c hc)
    (hwf c hc) rid flag

/-- Witness for C8 at a concrete input: a two-channel guild where one
channel holds explicit Allow and Deny flags and the other an all-Inherit
record; after export-then-import every role/flag state matches the
original. -/
theorem export_import_round_trip_witness :
    ((Guild.mk 1 "g" [Role.mk 10 "mods"]
        [Channel.mk 1 "general" "text" none, Channel.mk 2 "lobby" "text" none]).channels.map
      Channel.id).Nodup ∧
    (∀ c ∈ (Guild.mk 1 "g" [Role.mk 10 "mods"]
        [Channel.mk 1 "general" "text" none, Channel.mk 2 "lobby" "text" none]).channels,
      ∀ (rid : Nat) (flag : String),
        rolePermState
          ((importConfigOp
            (Guild.mk 1 "g" [Role.mk 10 "mods"]
              [Channel.mk 1 "general" "text" none, Channel.mk 2 "lobby" "text" none])
            (exportConfig
              (Guild.mk 1 "g" [Role.mk 10 "mods"]
                [Channel.mk 1 "general" "text" none, Channel.mk 2 "lobby" "text" none])
              "t"
              (BotState.mk
                (fun cid =>
                  if cid = 1 then [(10, [("speak", true), ("connect", false)])]
                  else if cid = 2 then [(10, [])] else [])
                none))
            "cfg.json"
            (BotState.mk
              (fun cid =>
                if cid = 1 then [(10, [("speak", true), ("connect", false)])]
                else if cid = 2 then [(10, [])] else [])
              none)).ows c.id) rid flag =
          rolePermState
            ((BotState.mk
              (fun cid =>
                if cid = 1 then [(10, [("speak", true), ("connect", false)])]
                else if cid = 2 then [(10, [])] else [])
              none).ows c.id) rid flag) :=
  ⟨by decide,
   export_import_round_trip
     (Guild.mk 1 "g" [Role.mk 10 "mods"]
       [Channel.mk 1 "general" "text" none, Channel.mk 2 "lobby" "text" none])
     "t" "cfg.json"
     (BotState.mk
       (fun cid =>
         if cid = 1 then [(10, [("speak", true), ("connect", false)])]
         else if cid = 2 then [(10, [])] else [])
       none)
     (by decide) (by decide) (by decide) (by decide)⟩

end DiscordPerms
